import Mathlib

/-!
Verification development for the Monopoly repository.

The engine is embedded shallowly: the mutable Python objects
(`Player`, `MapCell`, the `GameManager` fields) become immutable Lean
structures, and each state-mutating method becomes a function from the
old state to the new state.  Python object aliasing (methods mutate the
object found by `get_player_by_id` / `get_cell_at_position`) is embedded
by updating the first list element matching the same lookup predicate,
which is exactly the element Python's linear search returns.

Machine reals: the source stores the few rates it uses (`0.8`, `0.1`,
`0.05`, `1.0`) as Python floats.  They are embedded as exact fractions
(`PyRat`) and `int(x * r)` as truncated integer division; at every
concrete input appearing in this development the float computation and
the exact computation produce the same integer (e.g. `int(1000 * 0.8)`
is `800` in IEEE double arithmetic, as the product rounds to `800.0`).
-/

namespace Monopoly

/-- Exact stand-in for a nonnegative Python float rate: the value `num / den`
with `den > 0`. -/
structure PyRat where
  num : Int
  den : Int
deriving DecidableEq

/-- Embeds Python `int(x * r)` for an integer `x` and float rate `r`:
multiplication by the exact fraction followed by truncation toward zero
(`Int.tdiv` truncates toward zero exactly like Python's `int()`). -/
def pyIntMul (x : Int) (r : PyRat) : Int :=
  Int.tdiv (x * r.num) r.den

/-- Embeds `PlayerType` from `src/Model/models.py`. -/
inductive PlayerType where
  | human
  | ai
deriving DecidableEq

/-- Embeds `CellType` from `src/Model/models.py`. -/
inductive CellType where
  | start
  | property
  | chance
  | misfortune
  | tax
  | jail
  | goToJail
  | freeParking
  | airport
  | utility
  | landmark
  | hospital
  | luxuryTax
deriving DecidableEq

/-- Embeds `PropertyLevel` from `src/Model/models.py`. -/
inductive PropertyLevel where
  | empty
  | house1
  | house2
  | house3
  | hotel
deriving DecidableEq

/-- The `.value` of a `PropertyLevel` member. -/
def PropertyLevel.val : PropertyLevel → Int
  | .empty => 0
  | .house1 => 1
  | .house2 => 2
  | .house3 => 3
  | .hotel => 4

/-- Embeds `PropertyLevel(self.level.value + 1)`.  The source only evaluates
this under `can_upgrade()` (so below `HOTEL`); on `hotel` the Python
constructor would raise, and the value chosen here is never reached by the
embedded operations. -/
def PropertyLevel.next : PropertyLevel → PropertyLevel
  | .empty => .house1
  | .house1 => .house2
  | .house2 => .house3
  | .house3 => .hotel
  | .hotel => .hotel

/-- Embeds the `Player` dataclass from `src/Model/models.py` (the fields the
engine reads or writes; `name`/`avatar` are carried only through messages). -/
structure Player where
  id : Int
  name : String
  playerType : PlayerType
  money : Int := 15000
  position : Int := 0
  isInJail : Bool := false
  jailTurns : Int := 0
  isBankrupt : Bool := false
  properties : List Int := []
  items : List String := []
deriving DecidableEq

/-- Embeds `Player.move`: advance modulo the board size and report whether the
start cell was passed.  Python's `%` with a positive modulus agrees with
`Int.emod`. -/
def Player.move (p : Player) (steps : Int) (boardSize : Int) : Player × Bool :=
  let newPosition := (p.position + steps) % boardSize
  ({ p with position := newPosition },
   decide (newPosition < p.position) || decide (p.position + steps ≥ boardSize))

/-- Embeds `Player.add_money`. -/
def Player.addMoney (p : Player) (amount : Int) : Player :=
  { p with money := p.money + amount }

/-- Embeds `Player.spend_money`: debit only when the balance covers the
amount, otherwise leave the player unchanged and report failure. -/
def Player.spendMoney (p : Player) (amount : Int) : Player × Bool :=
  if p.money ≥ amount then ({ p with money := p.money - amount }, true)
  else (p, false)

/-- Embeds `Player.buy_property`: spend the price and, on success, append the
property id (the caller passes the cell's map position). -/
def Player.buyProperty (p : Player) (propertyId : Int) (price : Int) : Player × Bool :=
  let r := p.spendMoney price
  if r.2 then ({ r.1 with properties := r.1.properties ++ [propertyId] }, true)
  else (r.1, false)

/-- Removes the first occurrence of an element, as Python `list.remove` does
(the source always guards the call with a membership test). -/
def removeFirst {α : Type} [BEq α] (xs : List α) (a : α) : List α :=
  match xs with
  | [] => []
  | x :: rest => if x == a then rest else x :: removeFirst rest a

/-- Embeds `Player.go_to_jail` (jail is hard-coded at player position 9 with
3 turns). -/
def Player.goToJail (p : Player) : Player :=
  { p with isInJail := true, jailTurns := 3, position := 9 }

/-- Embeds `Player.try_leave_jail` (fine hard-coded at 500). -/
def Player.tryLeaveJail (p : Player) (payFine : Bool) : Player × Bool :=
  if ¬p.isInJail then (p, true)
  else
    let r := p.spendMoney 500
    if payFine && r.2 then ({ r.1 with isInJail := false, jailTurns := 0 }, true)
    else
      let p1 := if payFine && r.2 then r.1 else p
      let p2 := { p1 with jailTurns := p1.jailTurns - 1 }
      if p2.jailTurns ≤ 0 then ({ p2 with isInJail := false }, true)
      else (p2, false)

/-- Embeds `Player.check_bankruptcy`: negative cash marks the player
bankrupt. -/
def Player.checkBankruptcy (p : Player) : Player × Bool :=
  let p1 := if p.money < 0 then { p with isBankrupt := true } else p
  (p1, p1.isBankrupt)

/-- Embeds the `MapCell` dataclass from `src/Model/models.py`. -/
structure MapCell where
  id : Int
  position : Int
  name : String
  cellType : CellType
  price : Int := 0
  rentBase : Int := 0
  upgradeCost : Int := 0
  ownerId : Option Int := none
  level : PropertyLevel := .empty
deriving DecidableEq

/-- Embeds `MapCell.get_rent`: zero for every category outside
`PROPERTY`/`AIRPORT`/`LANDMARK` (note the `UTILITY` category is *not* in the
list), otherwise the base rent times 1/2/4/8/16 by level. -/
def MapCell.getRent (c : MapCell) : Int :=
  if c.cellType = .property ∨ c.cellType = .airport ∨ c.cellType = .landmark then
    match c.level with
    | .empty => c.rentBase
    | .house1 => c.rentBase * 2
    | .house2 => c.rentBase * 4
    | .house3 => c.rentBase * 8
    | .hotel => c.rentBase * 16
  else 0

/-- Embeds `MapCell.can_upgrade`: only owned `PROPERTY` cells below the hotel
level. -/
def MapCell.canUpgrade (c : MapCell) : Bool :=
  c.cellType == .property && c.ownerId.isSome && decide (c.level.val < PropertyLevel.val .hotel)

/-- Embeds `MapCell.upgrade`: raise the level and return the upgrade cost when
possible, otherwise return 0 and change nothing. -/
def MapCell.upgrade (c : MapCell) : MapCell × Int :=
  if c.canUpgrade then ({ c with level := c.level.next }, c.upgradeCost)
  else (c, 0)

/-- Embeds `MapCell.reset_ownership`: clears the owner and the level. -/
def MapCell.resetOwnership (c : MapCell) : MapCell :=
  { c with ownerId := none, level := .empty }

/-- Embeds the configuration values the embedded operations read
(`GameConfig` defaults from `src/Model/models.py`; `tax_rate` is the float
`0.1`). -/
structure GameConfig where
  initialMoney : Int := 15000
  startBonus : Int := 200
  jailFine : Int := 500
  taxRate : PyRat := ⟨1, 10⟩
deriving DecidableEq

/-- Updates the first list element satisfying the predicate — the element
Python's linear-search getters return and then mutate in place. -/
def updateFirst {α : Type} (p : α → Bool) (f : α → α) : List α → List α
  | [] => []
  | x :: xs => if p x then f x :: xs else x :: updateFirst p f xs

/-- The engine state: the `GameManager` fields that the embedded operations
read or write.  `special_effects` maps a player id to its
`"property_discount"` value, the only key the engine ever consults (the
source keeps a per-player dict; an entry here stands for that dict
containing the `"property_discount"` key). -/
structure GameState where
  players : List Player
  mapCells : List MapCell
  specialEffects : List (Int × PyRat) := []
  config : GameConfig := {}
deriving DecidableEq

/-- Embeds `GameManager.get_player_by_id`: first player with the id. -/
def GameState.getPlayerById (s : GameState) (playerId : Int) : Option Player :=
  s.players.find? (fun p => p.id == playerId)

/-- Embeds `GameManager.get_cell_at_position`: player positions start at 0,
map positions at 1, so the cell with `position == pos + 1` is returned. -/
def GameState.getCellAtPosition (s : GameState) (pos : Int) : Option MapCell :=
  s.mapCells.find? (fun c => c.position == pos + 1)

/-- Applies an in-place mutation of the player object returned by
`get_player_by_id`. -/
def GameState.setPlayer (s : GameState) (playerId : Int) (f : Player → Player) : GameState :=
  { s with players := updateFirst (fun p => p.id == playerId) f s.players }

/-- Applies an in-place mutation of the cell object returned by
`get_cell_at_position` (keyed by player position `pos`, so map position
`pos + 1`). -/
def GameState.setCellAt (s : GameState) (pos : Int) (f : MapCell → MapCell) : GameState :=
  { s with mapCells := updateFirst (fun c => c.position == pos + 1) f s.mapCells }

/-- Looks a cell up directly by its map position (the BLL commands hold the
cell object itself, whose key is its `position` field). -/
def GameState.getCellByMapPos (s : GameState) (mapPos : Int) : Option MapCell :=
  s.mapCells.find? (fun c => c.position == mapPos)

/-- In-place mutation of the cell with the given map position. -/
def GameState.setCellByMapPos (s : GameState) (mapPos : Int) (f : MapCell → MapCell) : GameState :=
  { s with mapCells := updateFirst (fun c => c.position == mapPos) f s.mapCells }

/-- Reads the pending `"property_discount"` for a player, if any. -/
def lookupEffect (effects : List (Int × PyRat)) (playerId : Int) : Option PyRat :=
  match effects.find? (fun e => e.1 == playerId) with
  | some e => some e.2
  | none => none

/-- Embeds `del self.special_effects[player.id]["property_discount"]` guarded
by the two membership tests the source performs. -/
def removeEffect (effects : List (Int × PyRat)) (playerId : Int) : List (Int × PyRat) :=
  match lookupEffect effects playerId with
  | some _ => effects.filter (fun e => ¬(e.1 == playerId))
  | none => effects

/-- Result record of `GameManager.move_player`. -/
structure MoveResult where
  oldPosition : Int
  newPosition : Int
  passedStart : Bool
  startBonus : Int
deriving DecidableEq

/-- Embeds `GameManager.move_player`: move the player and credit the start
bonus when the start cell was passed.  The source is only called with a
player object freshly looked up by id, so the `none` branch is dead at every
call site. -/
def GameState.movePlayer (s : GameState) (playerId : Int) (steps : Int) : GameState × MoveResult :=
  match s.getPlayerById playerId with
  | some player =>
      let r := player.move steps (s.mapCells.length : Int)
      let bonus := if r.2 then s.config.startBonus else 0
      let player2 := if r.2 then r.1.addMoney s.config.startBonus else r.1
      (s.setPlayer playerId (fun _ => player2),
       ⟨player.position, r.1.position, r.2, bonus⟩)
  | none => (s, ⟨0, 0, false, 0⟩)

/-- Embeds `GameManager.purchase_property` (called by the command layer with
the player and cell freshly looked up, embedded here by the same lookups):
consume any pending purchase discount, truncate the discounted price, and
run `Player.buy_property`; on success record the buyer as owner. -/
def GameState.purchaseProperty (s : GameState) (playerId : Int) (cellPos : Int) : GameState × Bool :=
  match s.getPlayerById playerId, s.getCellAtPosition cellPos with
  | some player, some cell =>
      if cell.ownerId.isSome then (s, false)
      else
        let discount := (lookupEffect s.specialEffects playerId).getD ⟨1, 1⟩
        let effects1 := removeEffect s.specialEffects playerId
        let finalPrice := pyIntMul cell.price discount
        let r := player.buyProperty cell.position finalPrice
        let s1 := { s with specialEffects := effects1 }
        let s2 := s1.setPlayer playerId (fun _ => r.1)
        if r.2 then (s2.setCellAt cellPos (fun c => { c with ownerId := some playerId }), true)
        else (s2, false)
  | _, _ => (s, false)

/-- Embeds `GameManager.upgrade_property`: `cell.upgrade()` raises the level
*before* the payment is attempted; when the cost is nonpositive or the owner
cannot pay, the method reports failure but the raised level stays. -/
def GameState.upgradeProperty (s : GameState) (playerId : Int) (cellPos : Int) : GameState × Bool :=
  match s.getPlayerById playerId, s.getCellAtPosition cellPos with
  | some player, some cell =>
      if ¬(cell.ownerId == some playerId) ∨ ¬cell.canUpgrade then (s, false)
      else
        let u := cell.upgrade
        let s1 := s.setCellAt cellPos (fun _ => u.1)
        if u.2 > 0 then
          let r := player.spendMoney u.2
          let s2 := s1.setPlayer playerId (fun _ => r.1)
          if r.2 then (s2, true) else (s2, false)
        else (s1, false)
  | _, _ => (s, false)

/-- Outcome tag of `GameManager._handle_property_landing`. -/
inductive LandingOutcome where
  | purchaseOption (canPurchase : Bool) (price : Int)
  | upgradeOption (canUpgradeNow : Bool) (upgradeCost : Int)
  | rentWaived
  | rentPaid (rent : Int)
  | invalid
deriving DecidableEq

/-- Embeds `GameManager._handle_property_landing` for the cell under the
player: unowned cells only offer a purchase, own cells only offer an upgrade,
and landing on another player's cell charges rent — the source *ignores* the
result of `payer.spend_money(rent)` and credits the owner unconditionally. -/
def GameState.handlePropertyLanding (s : GameState) (playerId : Int) : GameState × LandingOutcome :=
  match s.getPlayerById playerId with
  | none => (s, .invalid)
  | some player =>
      match s.getCellAtPosition player.position with
      | none => (s, .invalid)
      | some cell =>
          match cell.ownerId with
          | none => (s, .purchaseOption (decide (player.money ≥ cell.price)) cell.price)
          | some ownerId =>
              if ownerId == playerId then
                (s, .upgradeOption (cell.canUpgrade && decide (player.money ≥ cell.upgradeCost)) cell.upgradeCost)
              else
                let rent := cell.getRent
                if player.items.contains "免租卡" then
                  (s.setPlayer playerId (fun p => { p with items := removeFirst p.items "免租卡" }), .rentWaived)
                else
                  let s1 := s.setPlayer playerId (fun p => (p.spendMoney rent).1)
                  let s2 :=
                    match s1.getPlayerById ownerId with
                    | some _ => s1.setPlayer ownerId (fun o => o.addMoney rent)
                    | none => s1
                  (s2, .rentPaid rent)

/-- Character-wise containment test embedding Python's `needle in haystack`
on strings (used on the cell names `"所得税"` / `"奢侈税"`). -/
def charsStartWith : List Char → List Char → Bool
  | _, [] => true
  | [], _ :: _ => false
  | a :: as, b :: bs => a == b && charsStartWith as bs

/-- Containment of `needle` anywhere in `haystack`. -/
def charsContain : List Char → List Char → Bool
  | hay, needle =>
      if charsStartWith hay needle then true
      else
        match hay with
        | [] => false
        | _ :: t => charsContain t needle

/-- String containment as Python's `in` operator. -/
def strContains (haystack needle : String) : Bool :=
  charsContain haystack.data needle.data

/-- Embeds `GameManager._handle_tax_landing`: named tax cells charge fixed
amounts, every other tax cell charges `int(money * tax_rate)`; the debit is a
plain `spend_money` whose result is ignored. -/
def GameState.handleTaxLanding (s : GameState) (playerId : Int) : GameState × Int :=
  match s.getPlayerById playerId with
  | none => (s, 0)
  | some player =>
      match s.getCellAtPosition player.position with
      | none => (s, 0)
      | some cell =>
          let taxAmount :=
            if strContains cell.name "所得税" then 200
            else if strContains cell.name "奢侈税" then 100
            else pyIntMul player.money s.config.taxRate
          (s.setPlayer playerId (fun p => (p.spendMoney taxAmount).1), taxAmount)

/-- Embeds the `effect` dict of a `GameEvent`: one optional field per effect
key the processor reads, in the source's fixed processing order. -/
structure EventEffect where
  money : Option Int := none
  birthday : Option Int := none
  houseRepair : Option Int := none
  taxExtra : Option PyRat := none
  sendToJail : Bool := false
  moveBack : Option Int := none
  item : Option String := none
  freeMove : Bool := false
  extraTurn : Bool := false
  discount : Option PyRat := none
deriving DecidableEq

/-- Embeds a `GameEvent` value object. -/
structure GameEvent where
  eventType : String
  title : String
  effect : EventEffect
deriving DecidableEq

/-- Embeds the birthday loop of `EventProcessor.process_event`: every other
non-bankrupt player who can afford it pays the per-head amount; the total is
returned to be credited once. -/
def birthdayCollect (players : List Player) (playerId : Int) (amount : Int) : List Player × Int :=
  match players with
  | [] => ([], 0)
  | p :: rest =>
      let r := birthdayCollect rest playerId amount
      if ¬(p.id == playerId) && ¬p.isBankrupt then
        let sp := p.spendMoney amount
        (sp.1 :: r.1, (if sp.2 then amount else 0) + r.2)
      else (p :: r.1, r.2)

/-- Embeds the `"money"` block of `EventProcessor.process_event`: credit a
positive delta, debit the absolute value of a nonpositive one through
`spend_money`. -/
def eventMoneyStage (s : GameState) (e : EventEffect) (playerId : Int) : GameState :=
  match e.money with
  | some amount =>
      if amount > 0 then s.setPlayer playerId (fun p => p.addMoney amount)
      else s.setPlayer playerId (fun p => (p.spendMoney (-amount)).1)
  | none => s

/-- Embeds the `"birthday"` block: collect from the other players, then
credit the sum once. -/
def eventBirthdayStage (s : GameState) (e : EventEffect) (playerId : Int) : GameState :=
  match e.birthday with
  | some amount =>
      let r := birthdayCollect s.players playerId amount
      ({ s with players := r.1 } : GameState).setPlayer playerId (fun p => p.addMoney r.2)
  | none => s

/-- Embeds the `"house_repair"` block: a per-property cost debited through
`spend_money`. -/
def eventHouseRepairStage (s : GameState) (e : EventEffect) (playerId : Int) : GameState :=
  match e.houseRepair with
  | some cost =>
      match s.getPlayerById playerId with
      | some player =>
          s.setPlayer playerId
            (fun p => (p.spendMoney ((player.properties.length : Int) * cost)).1)
      | none => s
  | none => s

/-- Embeds the `"tax_extra"` block: `int(money * rate)` debited through
`spend_money`. -/
def eventTaxExtraStage (s : GameState) (e : EventEffect) (playerId : Int) : GameState :=
  match e.taxExtra with
  | some rate =>
      match s.getPlayerById playerId with
      | some player =>
          s.setPlayer playerId (fun p => (p.spendMoney (pyIntMul player.money rate)).1)
      | none => s
  | none => s

/-- Embeds the `"go_to_jail"` block. -/
def eventJailStage (s : GameState) (e : EventEffect) (playerId : Int) : GameState :=
  if e.sendToJail then s.setPlayer playerId (fun p => p.goToJail) else s

/-- Embeds the `"move_back"` block: position floored at 0, no wrap. -/
def eventMoveBackStage (s : GameState) (e : EventEffect) (playerId : Int) : GameState :=
  match e.moveBack with
  | some steps =>
      s.setPlayer playerId (fun p => { p with position := max 0 (p.position - steps) })
  | none => s

/-- Embeds the `"item"` block. -/
def eventItemStage (s : GameState) (e : EventEffect) (playerId : Int) : GameState :=
  match e.item with
  | some it => s.setPlayer playerId (fun p => { p with items := p.items ++ [it] })
  | none => s

/-- Embeds `EventProcessor.process_event` on the engine state (the processor
receives the current player and `self.players`, both aliased into the
state): the effect keys are applied in the source's textual order.
`free_move`, `extra_turn` and `discount` are only surfaced in the result
dict and change no player state, so no stage corresponds to them. -/
def GameState.processEvent (s : GameState) (e : EventEffect) (playerId : Int) : GameState :=
  eventItemStage
    (eventMoveBackStage
      (eventJailStage
        (eventTaxExtraStage
          (eventHouseRepairStage
            (eventBirthdayStage
              (eventMoneyStage s e playerId) e playerId) e playerId) e playerId) e playerId)
      e playerId) e playerId

/-- Embeds the jail-fine path of `GameManager.handle_ai_turn`
(`player.try_leave_jail(pay_fine=True)` on the aliased player object). -/
def GameState.payJailFine (s : GameState) (playerId : Int) : GameState :=
  s.setPlayer playerId (fun p => (p.tryLeaveJail true).1)

/-- Embeds `PurchasePropertyCommand` from `src/business/commands.py`: the
constructor state (`executed = False`, `purchase_price = 0`) is the record's
default. -/
structure PurchaseCmd where
  playerId : Int
  cellPosition : Int
  executed : Bool := false
  purchasePrice : Int := 0
deriving DecidableEq

/-- Embeds `PurchasePropertyCommand.execute`: note the affordability check
against the *undiscounted* `cell.price` and that `purchase_price` records
`cell.price` before `purchase_property` applies any discount. -/
def PurchaseCmd.execute (c : PurchaseCmd) (s : GameState) : PurchaseCmd × GameState × Bool :=
  match s.getPlayerById c.playerId, s.getCellAtPosition c.cellPosition with
  | some player, some cell =>
      if cell.ownerId.isSome then (c, s, false)
      else if player.money ≥ cell.price then
        let c1 := { c with purchasePrice := cell.price }
        let r := s.purchaseProperty c.playerId c.cellPosition
        if r.2 then ({ c1 with executed := true }, r.1, true)
        else (c1, r.1, false)
      else (c, s, false)
  | _, _ => (c, s, false)

/-- Embeds `PurchasePropertyCommand.undo`: refund `purchase_price`, clear the
ownership (which also zeroes the level), and remove `cell_position` — the
*player-relative* position — from the properties list (the execute path
appended the cell's *map* position). -/
def PurchaseCmd.undo (c : PurchaseCmd) (s : GameState) : PurchaseCmd × GameState × Bool :=
  if ¬c.executed then (c, s, false)
  else
    match s.getPlayerById c.playerId, s.getCellAtPosition c.cellPosition with
    | some player, some cell =>
        if cell.ownerId == some c.playerId then
          let s1 := s.setPlayer c.playerId (fun p => p.addMoney c.purchasePrice)
          let s2 := s1.setCellAt c.cellPosition (fun cl => cl.resetOwnership)
          let s3 :=
            if player.properties.contains c.cellPosition then
              s2.setPlayer c.playerId
                (fun p => { p with properties := removeFirst p.properties c.cellPosition })
            else s2
          ({ c with executed := false }, s3, true)
        else (c, s, false)
    | _, _ => (c, s, false)

/-- Embeds `UpgradePropertyCommand` from `src/business/commands.py`. -/
structure UpgradeCmd where
  playerId : Int
  cellPosition : Int
  executed : Bool := false
  upgradeCost : Int := 0
  previousLevel : Option PropertyLevel := none
deriving DecidableEq

/-- Embeds `UpgradePropertyCommand.execute`. -/
def UpgradeCmd.execute (c : UpgradeCmd) (s : GameState) : UpgradeCmd × GameState × Bool :=
  match s.getPlayerById c.playerId, s.getCellAtPosition c.cellPosition with
  | some player, some cell =>
      if ¬(cell.ownerId == some c.playerId) then (c, s, false)
      else if cell.canUpgrade && decide (player.money ≥ cell.upgradeCost) then
        let c1 := { c with previousLevel := some cell.level, upgradeCost := cell.upgradeCost }
        let r := s.upgradeProperty c.playerId c.cellPosition
        if r.2 then ({ c1 with executed := true }, r.1, true)
        else (c1, r.1, false)
      else (c, s, false)
  | _, _ => (c, s, false)

/-- Embeds `UpgradePropertyCommand.undo`: refund the cost and restore the
recorded level. -/
def UpgradeCmd.undo (c : UpgradeCmd) (s : GameState) : UpgradeCmd × GameState × Bool :=
  match c.previousLevel with
  | none => (c, s, false)
  | some lvl =>
      if ¬c.executed then (c, s, false)
      else
        match s.getPlayerById c.playerId, s.getCellAtPosition c.cellPosition with
        | some _, some _ =>
            let s1 := s.setPlayer c.playerId (fun p => p.addMoney c.upgradeCost)
            let s2 := s1.setCellAt c.cellPosition (fun cl => { cl with level := lvl })
            ({ c with executed := false }, s2, true)
        | _, _ => (c, s, false)

/-- Embeds `PayRentCommand` from `src/business/commands.py`. -/
structure PayRentCmd where
  payerId : Int
  receiverId : Int
  amount : Int
  cellPosition : Int
  executed : Bool := false
deriving DecidableEq

/-- Embeds `PayRentCommand.execute`: debit the payer, and only on success
credit the receiver.  There is no guard against re-execution. -/
def PayRentCmd.execute (c : PayRentCmd) (s : GameState) : PayRentCmd × GameState × Bool :=
  match s.getPlayerById c.payerId, s.getPlayerById c.receiverId with
  | some payer, some _ =>
      let r := payer.spendMoney c.amount
      if r.2 then
        let s1 := s.setPlayer c.payerId (fun _ => r.1)
        let s2 := s1.setPlayer c.receiverId (fun p => p.addMoney c.amount)
        ({ c with executed := true }, s2, true)
      else (c, s, false)
  | _, _ => (c, s, false)

/-- Embeds `PayRentCommand.undo`: the receiver's `spend_money` result is
ignored and the payer is refunded unconditionally. -/
def PayRentCmd.undo (c : PayRentCmd) (s : GameState) : PayRentCmd × GameState × Bool :=
  if ¬c.executed then (c, s, false)
  else
    match s.getPlayerById c.payerId, s.getPlayerById c.receiverId with
    | some _, some _ =>
        let s1 := s.setPlayer c.receiverId (fun p => (p.spendMoney c.amount).1)
        let s2 := s1.setPlayer c.payerId (fun p => p.addMoney c.amount)
        ({ c with executed := false }, s2, true)
    | _, _ => (c, s, false)

/-- Embeds `MovePlayerCommand` from `src/business/commands.py`. -/
structure MoveCmd where
  playerId : Int
  steps : Int
  executed : Bool := false
  previousPosition : Option Int := none
  startBonusReceived : Bool := false
deriving DecidableEq

/-- Embeds `MovePlayerCommand.execute`: records the old position, moves, and
always succeeds.  There is no guard against re-execution. -/
def MoveCmd.execute (c : MoveCmd) (s : GameState) : MoveCmd × GameState × Bool :=
  match s.getPlayerById c.playerId with
  | none => (c, s, false)
  | some player =>
      let c1 := { c with previousPosition := some player.position }
      let r := s.movePlayer c.playerId c.steps
      ({ c1 with startBonusReceived := r.2.passedStart, executed := true }, r.1, true)

/-- Embeds `MovePlayerCommand.undo`: restore the position and claw back the
start bonus when one was granted. -/
def MoveCmd.undo (c : MoveCmd) (s : GameState) : MoveCmd × GameState × Bool :=
  match c.previousPosition with
  | none => (c, s, false)
  | some prev =>
      if ¬c.executed then (c, s, false)
      else
        match s.getPlayerById c.playerId with
        | none => (c, s, false)
        | some _ =>
            let s1 := s.setPlayer c.playerId (fun p => { p with position := prev })
            let s2 :=
              if c.startBonusReceived then
                s1.setPlayer c.playerId (fun p => (p.spendMoney s.config.startBonus).1)
              else s1
            ({ c with executed := false }, s2, true)

/-- Embeds `PayTaxCommand` from `src/business/commands.py` (the tax amount is
a constructor argument). -/
structure PayTaxCmd where
  playerId : Int
  taxAmount : Int
  taxType : String
  executed : Bool := false
deriving DecidableEq

/-- Embeds `PayTaxCommand.execute`.  There is no guard against
re-execution. -/
def PayTaxCmd.execute (c : PayTaxCmd) (s : GameState) : PayTaxCmd × GameState × Bool :=
  match s.getPlayerById c.playerId with
  | none => (c, s, false)
  | some player =>
      let r := player.spendMoney c.taxAmount
      if r.2 then ({ c with executed := true }, s.setPlayer c.playerId (fun _ => r.1), true)
      else (c, s, false)

/-- Embeds `PayTaxCommand.undo`. -/
def PayTaxCmd.undo (c : PayTaxCmd) (s : GameState) : PayTaxCmd × GameState × Bool :=
  if ¬c.executed then (c, s, false)
  else
    match s.getPlayerById c.playerId with
    | none => (c, s, false)
    | some _ =>
        ({ c with executed := false }, s.setPlayer c.playerId (fun p => p.addMoney c.taxAmount), true)

/-- Embeds `GoToJailCommand` from `src/business/commands.py`. -/
structure GoToJailCmd where
  playerId : Int
  executed : Bool := false
  previousPosition : Option Int := none
  wasInJail : Bool := false
  previousJailTurns : Int := 0
deriving DecidableEq

/-- Embeds `GoToJailCommand.execute`: records position/jail state, then sends
the player to jail.  There is no guard against re-execution. -/
def GoToJailCmd.execute (c : GoToJailCmd) (s : GameState) : GoToJailCmd × GameState × Bool :=
  match s.getPlayerById c.playerId with
  | none => (c, s, false)
  | some player =>
      let c1 := { c with previousPosition := some player.position,
                         wasInJail := player.isInJail,
                         previousJailTurns := player.jailTurns }
      ({ c1 with executed := true }, s.setPlayer c.playerId (fun p => p.goToJail), true)

/-- Embeds `GoToJailCommand.undo`. -/
def GoToJailCmd.undo (c : GoToJailCmd) (s : GameState) : GoToJailCmd × GameState × Bool :=
  match c.previousPosition with
  | none => (c, s, false)
  | some prev =>
      if ¬c.executed then (c, s, false)
      else
        match s.getPlayerById c.playerId with
        | none => (c, s, false)
        | some _ =>
            let s1 := s.setPlayer c.playerId
              (fun p => { p with position := prev, isInJail := c.wasInJail,
                                 jailTurns := c.previousJailTurns })
            ({ c with executed := false }, s1, true)

/-- Sum of the six command types of `src/business/commands.py`. -/
inductive Cmd where
  | purchase (c : PurchaseCmd)
  | upgrade (c : UpgradeCmd)
  | payRent (c : PayRentCmd)
  | move (c : MoveCmd)
  | payTax (c : PayTaxCmd)
  | goToJail (c : GoToJailCmd)
deriving DecidableEq

/-- Dynamic dispatch of `Command.execute`. -/
def Cmd.execute (cmd : Cmd) (s : GameState) : Cmd × GameState × Bool :=
  match cmd with
  | .purchase c => let r := c.execute s; (.purchase r.1, r.2.1, r.2.2)
  | .upgrade c => let r := c.execute s; (.upgrade r.1, r.2.1, r.2.2)
  | .payRent c => let r := c.execute s; (.payRent r.1, r.2.1, r.2.2)
  | .move c => let r := c.execute s; (.move r.1, r.2.1, r.2.2)
  | .payTax c => let r := c.execute s; (.payTax r.1, r.2.1, r.2.2)
  | .goToJail c => let r := c.execute s; (.goToJail r.1, r.2.1, r.2.2)

/-- Dynamic dispatch of `Command.undo`. -/
def Cmd.undo (cmd : Cmd) (s : GameState) : Cmd × GameState × Bool :=
  match cmd with
  | .purchase c => let r := c.undo s; (.purchase r.1, r.2.1, r.2.2)
  | .upgrade c => let r := c.undo s; (.upgrade r.1, r.2.1, r.2.2)
  | .payRent c => let r := c.undo s; (.payRent r.1, r.2.1, r.2.2)
  | .move c => let r := c.undo s; (.move r.1, r.2.1, r.2.2)
  | .payTax c => let r := c.undo s; (.payTax r.1, r.2.1, r.2.2)
  | .goToJail c => let r := c.undo s; (.goToJail r.1, r.2.1, r.2.2)

/-- Embeds `MacroCommand.undo`'s reversed loop, applied here to an
already-reversed list: undo each command in turn, reporting whether every
undo succeeded. -/
def undoRevList : List Cmd → GameState → List Cmd × GameState × Bool
  | [], s => ([], s, true)
  | c :: rest, s =>
      let r := c.undo s
      let r2 := undoRevList rest r.2.1
      (r.1 :: r2.1, r2.2.1, r.2.2 && r2.2.2)

/-- Embeds the loop body of `MacroCommand.execute`: run the pending commands,
pushing each successfully executed command; on the first failure undo the
executed ones in reverse order and clear the stack (the source's
`self.undo()` call). -/
def macroRun : List Cmd → List Cmd → GameState → List Cmd × GameState × Bool
  | [], executedStack, s => (executedStack, s, true)
  | c :: rest, executedStack, s =>
      let r := c.execute s
      if r.2.2 then macroRun rest (executedStack ++ [r.1]) r.2.1
      else
        let u := undoRevList executedStack.reverse r.2.1
        ([], u.2.1, false)

/-- Embeds `MacroCommand` from `src/business/commands.py`.  The Python object
also keeps the member list whose objects it mutates through aliasing; the
embedded executed stack carries those updated command states, which is the
only place the source reads them back. -/
structure MacroCmd where
  commands : List Cmd
  executedCommands : List Cmd := []
deriving DecidableEq

/-- Embeds `MacroCommand.execute` (the stack is cleared on entry). -/
def MacroCmd.execute (m : MacroCmd) (s : GameState) : MacroCmd × GameState × Bool :=
  let r := macroRun m.commands [] s
  ({ m with executedCommands := r.1 }, r.2.1, r.2.2)

/-- Embeds `MacroCommand.undo`. -/
def MacroCmd.undo (m : MacroCmd) (s : GameState) : MacroCmd × GameState × Bool :=
  let r := undoRevList m.executedCommands.reverse s
  ({ m with executedCommands := [] }, r.2.1, r.2.2)

/-- Embeds `CommandInvoker` (both copies share this control flow:
`src/business/commands.py` constructs it with `max_history = 50`,
`src/BLL/commands.py` takes the capacity as a constructor argument,
default 10). -/
structure CommandInvoker where
  commandHistory : List Cmd := []
  currentIndex : Int := -1
  maxHistory : Nat := 50
deriving DecidableEq

/-- Embeds `CommandInvoker.can_undo`. -/
def CommandInvoker.canUndo (inv : CommandInvoker) : Bool :=
  inv.currentIndex ≥ 0

/-- Embeds `CommandInvoker.can_redo`. -/
def CommandInvoker.canRedo (inv : CommandInvoker) : Bool :=
  inv.currentIndex < (inv.commandHistory.length : Int) - 1

/-- Embeds `CommandInvoker.execute_command`: on success truncate the redo
tail, append, advance the cursor, then evict the oldest entry (moving the
cursor back) when the capacity is exceeded. -/
def CommandInvoker.executeCommand (inv : CommandInvoker) (cmd : Cmd) (s : GameState) :
    CommandInvoker × GameState × Bool :=
  let r := cmd.execute s
  if r.2.2 then
    let kept := inv.commandHistory.take (inv.currentIndex + 1).toNat ++ [r.1]
    let idx := inv.currentIndex + 1
    if (kept.length : Int) > (inv.maxHistory : Int) then
      ({ inv with commandHistory := kept.drop 1, currentIndex := idx - 1 }, r.2.1, true)
    else
      ({ inv with commandHistory := kept, currentIndex := idx }, r.2.1, true)
  else (inv, r.2.1, false)

/-- Embeds `CommandInvoker.undo`: the Python list index cannot be out of
range while the invoker invariant holds (proved below); the out-of-range
case, which would raise in Python, is embedded as a failure. -/
def CommandInvoker.undo (inv : CommandInvoker) (s : GameState) :
    CommandInvoker × GameState × Bool :=
  if inv.canUndo then
    match inv.commandHistory.get? inv.currentIndex.toNat with
    | some cmd =>
        let r := cmd.undo s
        let h := inv.commandHistory.set inv.currentIndex.toNat r.1
        if r.2.2 then
          ({ inv with commandHistory := h, currentIndex := inv.currentIndex - 1 }, r.2.1, true)
        else ({ inv with commandHistory := h }, r.2.1, false)
    | none => (inv, s, false)
  else (inv, s, false)

/-- Embeds `CommandInvoker.redo`: advance the cursor, re-execute, and step
back on failure. -/
def CommandInvoker.redo (inv : CommandInvoker) (s : GameState) :
    CommandInvoker × GameState × Bool :=
  if inv.canRedo then
    let idx := inv.currentIndex + 1
    match inv.commandHistory.get? idx.toNat with
    | some cmd =>
        let r := cmd.execute s
        let h := inv.commandHistory.set idx.toNat r.1
        if r.2.2 then ({ inv with commandHistory := h, currentIndex := idx }, r.2.1, true)
        else ({ inv with commandHistory := h, currentIndex := idx - 1 }, r.2.1, false)
    | none => (inv, s, false)
  else (inv, s, false)

/-- Runs a list of commands through the invoker, each via
`execute_command`. -/
def runAll (inv : CommandInvoker) (cmds : List Cmd) (s : GameState) :
    CommandInvoker × GameState :=
  match cmds with
  | [] => (inv, s)
  | c :: rest =>
      let r := inv.executeCommand c s
      runAll r.1 rest r.2.1

/-- The command states stored by a run of executes (each command object is
mutated by its `execute` and appended in that mutated form). -/
def execChain : List Cmd → GameState → List Cmd
  | [], _ => []
  | c :: rest, s => (c.execute s).1 :: execChain rest (c.execute s).2.1

/-- Whether every `execute` in a run reports success. -/
def allSucceed : List Cmd → GameState → Bool
  | [], _ => true
  | c :: rest, s => (c.execute s).2.2 && allSucceed rest (c.execute s).2.1

/-- The invoker invariant of the spec's History: the history never exceeds
the configured capacity and the cursor partitions it, staying in
`[-1, size - 1]`. -/
def InvokerInv (inv : CommandInvoker) : Prop :=
  inv.commandHistory.length ≤ inv.maxHistory ∧
  -1 ≤ inv.currentIndex ∧ inv.currentIndex < (inv.commandHistory.length : Int)

/-- Embeds `PurchasePropertyCommand` from `src/BLL/command_implementations.py`.
This copy holds the player and cell objects; the embedding keys them by
player id and by the cell's own `position` field (its map position), and the
constructor captures `original_owner = cell.owner_id`. -/
structure BLLPurchaseCmd where
  playerId : Int
  cellPosition : Int
  originalOwner : Option Int
  purchasePrice : Int := 0
  executed : Bool := false
deriving DecidableEq

/-- Embeds the BLL `PurchasePropertyCommand.__init__` from the live player
and cell objects. -/
def BLLPurchaseCmd.make (player : Player) (cell : MapCell) : BLLPurchaseCmd :=
  { playerId := player.id, cellPosition := cell.position, originalOwner := cell.ownerId }

/-- Embeds the BLL `PurchasePropertyCommand.execute`: guarded against
re-execution, the price check and the debit both use the *discounted*
price, and the discount is consumed only after a successful purchase. -/
def BLLPurchaseCmd.execute (c : BLLPurchaseCmd) (s : GameState) :
    BLLPurchaseCmd × GameState × Bool :=
  if c.executed then (c, s, false)
  else
    match s.getPlayerById c.playerId, s.getCellByMapPos c.cellPosition with
    | some player, some cell =>
        if cell.ownerId.isSome then (c, s, false)
        else
          let discount := (lookupEffect s.specialEffects c.playerId).getD ⟨1, 1⟩
          let c1 := { c with purchasePrice := pyIntMul cell.price discount }
          if player.money < c1.purchasePrice then (c1, s, false)
          else
            let s1 := s.setPlayer c.playerId (fun p => (p.spendMoney c1.purchasePrice).1)
            let s2 := s1.setCellByMapPos c.cellPosition (fun cl => { cl with ownerId := some c.playerId })
            let s3 := s2.setPlayer c.playerId (fun p => { p with properties := p.properties ++ [c.cellPosition] })
            let s4 := { s3 with specialEffects := removeEffect s3.specialEffects c.playerId }
            ({ c1 with executed := true }, s4, true)
    | _, _ => (c, s, false)

/-- Embeds the BLL `PurchasePropertyCommand.undo`: refund the recorded
(discounted) price, restore the captured original owner, and remove the
cell's map position from the properties list. -/
def BLLPurchaseCmd.undo (c : BLLPurchaseCmd) (s : GameState) :
    BLLPurchaseCmd × GameState × Bool :=
  if ¬c.executed then (c, s, false)
  else
    match s.getPlayerById c.playerId with
    | none => (c, s, false)
    | some player =>
        let s1 := s.setPlayer c.playerId (fun p => p.addMoney c.purchasePrice)
        let s2 := s1.setCellByMapPos c.cellPosition (fun cl => { cl with ownerId := c.originalOwner })
        let s3 :=
          if player.properties.contains c.cellPosition then
            s2.setPlayer c.playerId
              (fun p => { p with properties := removeFirst p.properties c.cellPosition })
          else s2
        ({ c with executed := false }, s3, true)

/-- Embeds `UpgradePropertyCommand` from `src/BLL/command_implementations.py`
(the constructor captures `original_level = cell.level`). -/
structure BLLUpgradeCmd where
  playerId : Int
  cellPosition : Int
  originalLevel : PropertyLevel
  upgradeCost : Int := 0
  executed : Bool := false
deriving DecidableEq

/-- Embeds the BLL `UpgradePropertyCommand.execute`: guarded against
re-execution and the level is raised only *after* the payment succeeds. -/
def BLLUpgradeCmd.execute (c : BLLUpgradeCmd) (s : GameState) :
    BLLUpgradeCmd × GameState × Bool :=
  if c.executed then (c, s, false)
  else
    match s.getPlayerById c.playerId, s.getCellByMapPos c.cellPosition with
    | some player, some cell =>
        if ¬(cell.ownerId == some c.playerId) then (c, s, false)
        else if ¬cell.canUpgrade then (c, s, false)
        else
          let c1 := { c with upgradeCost := cell.upgradeCost }
          if player.money < c1.upgradeCost then (c1, s, false)
          else
            let s1 := s.setPlayer c.playerId (fun p => (p.spendMoney c1.upgradeCost).1)
            let s2 := s1.setCellByMapPos c.cellPosition (fun cl => { cl with level := cl.level.next })
            ({ c1 with executed := true }, s2, true)
    | _, _ => (c, s, false)

/-- Embeds the BLL `UpgradePropertyCommand.undo`. -/
def BLLUpgradeCmd.undo (c : BLLUpgradeCmd) (s : GameState) :
    BLLUpgradeCmd × GameState × Bool :=
  if ¬c.executed then (c, s, false)
  else
    let s1 := s.setPlayer c.playerId (fun p => p.addMoney c.upgradeCost)
    let s2 := s1.setCellByMapPos c.cellPosition (fun cl => { cl with level := c.originalLevel })
    ({ c with executed := false }, s2, true)

/-- Embeds `PayTaxCommand` from `src/BLL/command_implementations.py` (the tax
amount is computed inside `execute` from the cell name and balance). -/
structure BLLPayTaxCmd where
  playerId : Int
  cellPosition : Int
  taxAmount : Int := 0
  executed : Bool := false
deriving DecidableEq

/-- Embeds the BLL `PayTaxCommand.execute`: guarded against re-execution and
checks affordability before debiting. -/
def BLLPayTaxCmd.execute (c : BLLPayTaxCmd) (s : GameState) :
    BLLPayTaxCmd × GameState × Bool :=
  if c.executed then (c, s, false)
  else
    match s.getPlayerById c.playerId, s.getCellByMapPos c.cellPosition with
    | some player, some cell =>
        let amount :=
          if strContains cell.name "所得税" then 200
          else if strContains cell.name "奢侈税" then 100
          else pyIntMul player.money s.config.taxRate
        let c1 := { c with taxAmount := amount }
        if player.money < amount then (c1, s, false)
        else
          ({ c1 with executed := true },
           s.setPlayer c.playerId (fun p => (p.spendMoney amount).1), true)
    | _, _ => (c, s, false)

/-- Embeds the BLL `PayTaxCommand.undo`. -/
def BLLPayTaxCmd.undo (c : BLLPayTaxCmd) (s : GameState) :
    BLLPayTaxCmd × GameState × Bool :=
  if ¬c.executed then (c, s, false)
  else
    ({ c with executed := false },
     s.setPlayer c.playerId (fun p => p.addMoney c.taxAmount), true)

/-- Embeds `MovePlayerCommand` from `src/BLL/command_implementations.py`
(the constructor captures `original_position = player.position`). -/
structure BLLMoveCmd where
  playerId : Int
  steps : Int
  originalPosition : Int
  startBonus : Int := 0
  executed : Bool := false
deriving DecidableEq

/-- Embeds the BLL `MovePlayerCommand.execute`: guarded against
re-execution. -/
def BLLMoveCmd.execute (c : BLLMoveCmd) (s : GameState) :
    BLLMoveCmd × GameState × Bool :=
  if c.executed then (c, s, false)
  else
    match s.getPlayerById c.playerId with
    | none => (c, s, false)
    | some player =>
        let r := player.move c.steps (s.mapCells.length : Int)
        let c1 := if r.2 then { c with startBonus := s.config.startBonus } else c
        let player2 := if r.2 then r.1.addMoney s.config.startBonus else r.1
        ({ c1 with executed := true }, s.setPlayer c.playerId (fun _ => player2), true)

/-- Embeds the BLL `MovePlayerCommand.undo`. -/
def BLLMoveCmd.undo (c : BLLMoveCmd) (s : GameState) :
    BLLMoveCmd × GameState × Bool :=
  if ¬c.executed then (c, s, false)
  else
    let s1 := s.setPlayer c.playerId (fun p => { p with position := c.originalPosition })
    let s2 :=
      if c.startBonus > 0 then s1.setPlayer c.playerId (fun p => (p.spendMoney c.startBonus).1)
      else s1
    ({ c with executed := false }, s2, true)

/-- The three concrete strategy classes of `src/business/ai_strategy.py`,
identified by which class the factories instantiate (Easy = Cautious,
Medium = Balanced, Hard = Aggressive). -/
inductive StrategyKind where
  | easyAI
  | mediumAI
  | hardAI
deriving DecidableEq

/-- ASCII lowering of one character code, embedding Python `str.lower()` on
the inputs that matter here (the known difficulty keys are pure ASCII; the
only non-ASCII character Python lowers *into* ASCII is the Kelvin sign,
which cannot produce any of the three keys). -/
def lowerCode (c : Char) : Nat :=
  if 65 ≤ c.toNat ∧ c.toNat ≤ 90 then c.toNat + 32 else c.toNat

/-- Code sequence of `s.lower()`. -/
def lowerCodes (s : String) : List Nat :=
  s.data.map lowerCode

/-- Embeds `AIStrategyFactory.create_strategy` from
`src/business/ai_strategy.py`: `strategies.get(difficulty.lower(), MediumAIStrategy)`. -/
def AIStrategyFactory.createStrategy (difficulty : String) : StrategyKind :=
  let d := lowerCodes difficulty
  if d == lowerCodes "easy" then .easyAI
  else if d == lowerCodes "medium" then .mediumAI
  else if d == lowerCodes "hard" then .hardAI
  else .mediumAI

/-- Embeds `StandardGameFactory.create_ai_strategy` from
`src/business/concrete_factories.py` (same table and same default as the
plain factory). -/
def StandardGameFactory.createAIStrategy (difficulty : String) : StrategyKind :=
  let d := lowerCodes difficulty
  if d == lowerCodes "easy" then .easyAI
  else if d == lowerCodes "medium" then .mediumAI
  else if d == lowerCodes "hard" then .hardAI
  else .mediumAI

/-- Embeds `HardModeGameFactory.create_ai_strategy`: every difficulty is
promoted and the dict-`get` default is `HardAIStrategy`. -/
def HardModeGameFactory.createAIStrategy (difficulty : String) : StrategyKind :=
  let d := lowerCodes difficulty
  if d == lowerCodes "easy" then .mediumAI
  else if d == lowerCodes "medium" then .hardAI
  else if d == lowerCodes "hard" then .hardAI
  else .hardAI

/-- Embeds `EasyModeGameFactory.create_ai_strategy`: every difficulty is
demoted and the dict-`get` default is `EasyAIStrategy`. -/
def EasyModeGameFactory.createAIStrategy (difficulty : String) : StrategyKind :=
  let d := lowerCodes difficulty
  if d == lowerCodes "easy" then .easyAI
  else if d == lowerCodes "medium" then .easyAI
  else if d == lowerCodes "hard" then .mediumAI
  else .easyAI

/-- Embeds `EventFactory.create_chance_events` from `src/business/events.py`
(titles/descriptions carry no behavior and are omitted from the effect). -/
def createChanceEvents : List GameEvent :=
  [⟨"money", "银行分红", { money := some 500 }⟩,
   ⟨"money", "彩票中奖", { money := some 1000 }⟩,
   ⟨"money", "股票上涨", { money := some 800 }⟩,
   ⟨"move", "免费旅行", { freeMove := true }⟩,
   ⟨"roll_again", "再投一次", { extraTurn := true }⟩,
   ⟨"money", "房租减免", { money := some 300 }⟩,
   ⟨"item", "获得道具", { item := some "免租卡" }⟩,
   ⟨"money", "生日快乐", { birthday := some 50 }⟩,
   ⟨"money", "工作奖金", { money := some 400 }⟩,
   ⟨"property_discount", "房产折扣", { discount := some ⟨4, 5⟩ }⟩]

/-- Embeds `EventFactory.create_misfortune_events` from
`src/business/events.py`. -/
def createMisfortuneEvents : List GameEvent :=
  [⟨"money", "医疗费用", { money := some (-300) }⟩,
   ⟨"money", "车辆维修", { money := some (-200) }⟩,
   ⟨"jail", "违章停车", { sendToJail := true }⟩,
   ⟨"money", "投资失败", { money := some (-500) }⟩,
   ⟨"money", "房屋维修", { houseRepair := some 100 }⟩,
   ⟨"money", "罚款通知", { money := some (-150) }⟩,
   ⟨"move_back", "迷路了", { moveBack := some 3 }⟩,
   ⟨"money", "税务检查", { taxExtra := some ⟨1, 20⟩ }⟩,
   ⟨"money", "手机丢失", { money := some (-250) }⟩,
   ⟨"money", "信用卡被盗刷", { money := some (-400) }⟩]

/-- One engine money-or-state operation of the kind claim C10 ranges over:
rent charging, tax charging, event processing (with an event drawn from one
of the two catalogs), purchase, upgrade, and jail-fine payment. -/
inductive EngineStep : GameState → GameState → Prop where
  | propertyLanding (s : GameState) (pid : Int) :
      EngineStep s (s.handlePropertyLanding pid).1
  | taxLanding (s : GameState) (pid : Int) :
      EngineStep s (s.handleTaxLanding pid).1
  | chanceEvent (s : GameState) (e : GameEvent) (pid : Int)
      (he : e ∈ createChanceEvents) : EngineStep s (s.processEvent e.effect pid)
  | misfortuneEvent (s : GameState) (e : GameEvent) (pid : Int)
      (he : e ∈ createMisfortuneEvents) : EngineStep s (s.processEvent e.effect pid)
  | purchase (s : GameState) (pid cellPos : Int) :
      EngineStep s (s.purchaseProperty pid cellPos).1
  | upgrade (s : GameState) (pid cellPos : Int) :
      EngineStep s (s.upgradeProperty pid cellPos).1
  | jailFine (s : GameState) (pid : Int) :
      EngineStep s (s.payJailFine pid)

/-- States whose players all have nonnegative cash and whose cells all have
nonnegative base rents (the latter never changes and holds of the shipped
map data). -/
def MoneyInv (s : GameState) : Prop :=
  (∀ p ∈ s.players, 0 ≤ p.money) ∧ (∀ c ∈ s.mapCells, 0 ≤ c.rentBase)

/-- The command classes whose `execute`/`undo` pair can be exactly inverse:
every class except `PurchasePropertyCommand` (whose undo refunds the
undiscounted price and removes the wrong properties entry), with rent
transfers restricted to distinct parties and nonnegative amounts. -/
def RevertibleCmd : Cmd → Bool
  | .purchase _ => false
  | .payRent c => !(c.payerId == c.receiverId) && decide (0 ≤ c.amount)
  | _ => true

/-- Sanity conditions the shipped game data satisfies: nonnegative balances,
strictly positive upgrade costs, and a nonnegative start bonus. -/
def StateOk (s : GameState) : Prop :=
  (∀ p ∈ s.players, 0 ≤ p.money) ∧ (∀ c ∈ s.mapCells, 0 < c.upgradeCost) ∧
    0 ≤ s.config.startBonus

/-! ### Helper lemmas about the embedding -/

theorem find?_updateFirst_same {α : Type} (p : α → Bool) (f : α → α)
    (hf : ∀ a, p (f a) = p a) (l : List α) :
    (updateFirst p f l).find? p = (l.find? p).map f := by
  induction l with
  | nil => rfl
  | cons x xs ih =>
      by_cases hx : p x = true
      · simp [updateFirst, hx, List.find?_cons_of_pos, hf x]
      · have hx' : p x = false := by revert hx; cases p x <;> simp
        simp [updateFirst, hx', List.find?_cons_of_neg, ih]

theorem find?_updateFirst_other {α : Type} (p q : α → Bool) (f : α → α) (l : List α)
    (hq : ∀ a, l.find? p = some a → q (f a) = q a)
    (hdisj : ∀ a, q a = true → p a = false) :
    (updateFirst p f l).find? q = l.find? q := by
  induction l with
  | nil => rfl
  | cons x xs ih =>
      by_cases hx : p x = true
      · have hqx : q x = false := by
          revert hx; cases hq2 : q x
          · simp
          · simp [hdisj x hq2]
        have hqfx : q (f x) = false := by
          rw [hq x (by simp [List.find?_cons_of_pos, hx])]; exact hqx
        simp [updateFirst, hx, List.find?_cons_of_neg, hqx, hqfx]
      · have hx' : p x = false := by revert hx; cases p x <;> simp
        by_cases hq2 : q x = true
        · simp [updateFirst, hx', List.find?_cons_of_pos, hq2]
        · have hq2' : q x = false := by revert hq2; cases q x <;> simp
          have ih' := ih (fun a ha => hq a (by simpa [List.find?_cons_of_neg, hx'] using ha))
          simp [updateFirst, hx', List.find?_cons_of_neg, hq2', ih']

theorem find?_updateFirst_of_found {α : Type} (p : α → Bool) (f : α → α) (l : List α)
    (a : α) (h : l.find? p = some a) (hpa : p (f a) = true) :
    (updateFirst p f l).find? p = some (f a) := by
  induction l with
  | nil => cases h
  | cons x xs ih =>
      by_cases hx : p x = true
      · rw [List.find?_cons_of_pos _ hx] at h
        injection h with h
        subst h
        simp [updateFirst, hx, List.find?_cons_of_pos, hpa]
      · have hx' : p x = false := by revert hx; cases p x <;> simp
        rw [List.find?_cons_of_neg _ (by simp [hx'])] at h
        simp [updateFirst, hx', List.find?_cons_of_neg, ih h]

theorem forall_updateFirst {α : Type} {P : α → Prop} (p : α → Bool) (f : α → α) (l : List α)
    (h : ∀ b ∈ l, P b) (hf : ∀ b ∈ l, P b → P (f b)) :
    ∀ a ∈ updateFirst p f l, P a := by
  induction l with
  | nil => intro a ha; cases ha
  | cons x xs ih =>
      intro a ha
      by_cases hx : p x = true
      · simp [updateFirst, hx] at ha
        rcases ha with rfl | ha
        · exact hf x (by simp) (h x (by simp))
        · exact h a (by simp [ha])
      · have hx' : p x = false := by revert hx; cases p x <;> simp
        simp [updateFirst, hx'] at ha
        rcases ha with rfl | ha
        · exact h a (by simp)
        · exact ih (fun b hb => h b (by simp [hb])) (fun b hb => hf b (by simp [hb])) a ha

theorem updateFirst_cancel {α : Type} (p : α → Bool) (f g : α → α) (l : List α)
    (h : ∀ a, l.find? p = some a → p (g a) = true ∧ f (g a) = a) :
    updateFirst p f (updateFirst p g l) = l := by
  induction l with
  | nil => rfl
  | cons x xs ih =>
      by_cases hx : p x = true
      · have hgx := h x (by simp [List.find?_cons_of_pos, hx])
        simp [updateFirst, hx, hgx.1, hgx.2]
      · have hx' : p x = false := by revert hx; cases p x <;> simp
        have ih' := ih (fun a ha => h a (by simpa [List.find?_cons_of_neg, hx'] using ha))
        simp [updateFirst, hx', ih']

theorem updateFirst_fuse {α : Type} (p : α → Bool) (f g : α → α) (l : List α)
    (hg : ∀ a, p (g a) = p a) :
    updateFirst p f (updateFirst p g l) = updateFirst p (fun a => f (g a)) l := by
  induction l with
  | nil => rfl
  | cons x xs ih =>
      by_cases hx : p x = true
      · have : p (g x) = true := by rw [hg x]; exact hx
        simp [updateFirst, hx, this]
      · have hx' : p x = false := by revert hx; cases p x <;> simp
        have : p (g x) = false := by rw [hg x]; exact hx'
        simp [updateFirst, hx', this, ih]

theorem updateFirst_comm {α : Type} (p q : α → Bool) (f g : α → α) (l : List α)
    (hpg : ∀ a, p (g a) = p a) (hqf : ∀ a, q (f a) = q a)
    (hdisj : ∀ a, p a = true → q a = false) :
    updateFirst p f (updateFirst q g l) = updateFirst q g (updateFirst p f l) := by
  induction l with
  | nil => rfl
  | cons x xs ih =>
      by_cases hx : p x = true
      · have hqx : q x = false := hdisj x hx
        have h1 : q (f x) = false := by rw [hqf x]; exact hqx
        simp [updateFirst, hx, hqx, h1]
      · have hx' : p x = false := by revert hx; cases p x <;> simp
        by_cases hq2 : q x = true
        · have h1 : p (g x) = false := by rw [hpg x]; exact hx'
          simp [updateFirst, hx', hq2, h1]
        · have hq2' : q x = false := by revert hq2; cases q x <;> simp
          simp [updateFirst, hx', hq2', ih]

theorem updateFirst_id_on_match {α : Type} (p : α → Bool) (f : α → α) (l : List α)
    (h : ∀ a, l.find? p = some a → f a = a) :
    updateFirst p f l = l := by
  induction l with
  | nil => rfl
  | cons x xs ih =>
      by_cases hx : p x = true
      · simp [updateFirst, hx, h x (by simp [List.find?_cons_of_pos, hx])]
      · have hx' : p x = false := by revert hx; cases p x <;> simp
        have ih' := ih (fun a ha => h a (by simpa [List.find?_cons_of_neg, hx'] using ha))
        simp [updateFirst, hx', ih']

theorem updateFirst_congr {α : Type} (p : α → Bool) (f g : α → α) (l : List α)
    (h : ∀ a, l.find? p = some a → f a = g a) :
    updateFirst p f l = updateFirst p g l := by
  induction l with
  | nil => rfl
  | cons x xs ih =>
      by_cases hx : p x = true
      · simp [updateFirst, hx, h x (by simp [List.find?_cons_of_pos, hx])]
      · have hx' : p x = false := by revert hx; cases p x <;> simp
        have ih' := ih (fun a ha => h a (by simpa [List.find?_cons_of_neg, hx'] using ha))
        simp [updateFirst, hx', ih']

theorem pyIntMul_one (x : Int) : pyIntMul x ⟨1, 1⟩ = x := by
  simp [pyIntMul, Int.tdiv_one]

theorem spendMoney_id (p : Player) (a : Int) : (p.spendMoney a).1.id = p.id := by
  unfold Player.spendMoney; split <;> rfl

theorem spendMoney_nonneg (p : Player) (a : Int) (h : 0 ≤ p.money) :
    0 ≤ (p.spendMoney a).1.money := by
  unfold Player.spendMoney
  split
  · next hge => simp at hge ⊢; omega
  · simpa using h

theorem addMoney_id (p : Player) (a : Int) : (p.addMoney a).id = p.id := rfl

theorem buyProperty_id (p : Player) (i pr : Int) : (p.buyProperty i pr).1.id = p.id := by
  have h := spendMoney_id p pr
  rcases hr : p.spendMoney pr with ⟨p1, ok⟩
  rw [hr] at h
  simp only [Player.buyProperty, hr]
  cases ok <;> simpa using h

theorem getPlayerById_setCellAt (s : GameState) (pos : Int) (f : MapCell → MapCell)
    (pid : Int) : (s.setCellAt pos f).getPlayerById pid = s.getPlayerById pid := rfl

theorem getPlayerById_setCellByMapPos (s : GameState) (mp : Int) (f : MapCell → MapCell)
    (pid : Int) : (s.setCellByMapPos mp f).getPlayerById pid = s.getPlayerById pid := rfl

theorem getCellAtPosition_setPlayer (s : GameState) (pid : Int) (f : Player → Player)
    (pos : Int) : (s.setPlayer pid f).getCellAtPosition pos = s.getCellAtPosition pos := rfl

theorem getCellByMapPos_setPlayer (s : GameState) (pid : Int) (f : Player → Player)
    (mp : Int) : (s.setPlayer pid f).getCellByMapPos mp = s.getCellByMapPos mp := rfl

theorem getPlayerById_setPlayer_found (s : GameState) (pid : Int) (f : Player → Player)
    (player : Player) (h : s.getPlayerById pid = some player)
    (hid : (f player).id = player.id) :
    (s.setPlayer pid f).getPlayerById pid = some (f player) := by
  have hmem := List.find?_some (show List.find? (fun p => p.id == pid) s.players = some player from h)
  show List.find? (fun p => p.id == pid) (updateFirst (fun p => p.id == pid) f s.players) =
    some (f player)
  refine find?_updateFirst_of_found _ _ _ _ h ?_
  simp only [beq_iff_eq] at hmem ⊢
  rw [hid, hmem]

theorem getPlayerById_setPlayer_other (s : GameState) (pid : Int) (f : Player → Player)
    (pid2 : Int) (hne : pid2 ≠ pid)
    (hid : ∀ a, s.getPlayerById pid = some a → (f a).id = a.id) :
    (s.setPlayer pid f).getPlayerById pid2 = s.getPlayerById pid2 := by
  show List.find? (fun p => p.id == pid2) (updateFirst (fun p => p.id == pid) f s.players) =
    List.find? (fun p => p.id == pid2) s.players
  refine find?_updateFirst_other _ _ _ _ ?_ ?_
  · intro a ha
    rw [hid a ha]
  · intro a ha
    simp only [beq_iff_eq] at ha
    simp [beq_eq_false_iff_ne, ha, hne]

theorem getCellAtPosition_setCellAt_found (s : GameState) (pos : Int)
    (f : MapCell → MapCell) (cell : MapCell) (h : s.getCellAtPosition pos = some cell)
    (hpos : (f cell).position = cell.position) :
    (s.setCellAt pos f).getCellAtPosition pos = some (f cell) := by
  have hmem := List.find?_some
    (show List.find? (fun c => c.position == pos + 1) s.mapCells = some cell from h)
  show List.find? (fun c => c.position == pos + 1)
    (updateFirst (fun c => c.position == pos + 1) f s.mapCells) = some (f cell)
  refine find?_updateFirst_of_found _ _ _ _ h ?_
  simp only [beq_iff_eq] at hmem ⊢
  rw [hpos, hmem]

theorem tryLeaveJail_nonneg (p : Player) (b : Bool) (h : 0 ≤ p.money) :
    0 ≤ (p.tryLeaveJail b).1.money := by
  unfold Player.tryLeaveJail
  have hs := spendMoney_nonneg p 500 h
  by_cases hj : p.isInJail = true
  · simp only [hj, not_true, if_false]
    by_cases hb : (b && (p.spendMoney 500).2) = true
    · simp [hb, hs]
    · have hb' : (b && (p.spendMoney 500).2) = false := by
        revert hb; cases b && (p.spendMoney 500).2 <;> simp
      simp only [hb', Bool.false_eq_true, if_false]
      split <;> simpa using h
  · have hj' : p.isInJail = false := by revert hj; cases p.isInJail <;> simp
    simp [hj', h]

/-! ### Claim C1 -/

/-- Claim C1 (code bug): undoing a Purchase command is required to refund
exactly the debited amount including any purchase discount, but
`PurchasePropertyCommand` records the *undiscounted* `cell.price` before
`GameManager.purchase_property` applies the discount.  At a state with an
active 8/10 discount, a 1000-price purchase debits 800 yet the undo refunds
1000, leaving the buyer 200 richer than before the command (and the
purchased map position is left in `player.properties`, since the undo
removes the player-relative position instead). -/
theorem C1_purchase_undo_refund_bug :
    (let s0 : GameState :=
      { players := [{ id := 1, name := "甲", playerType := .human, money := 2000, position := 1 }],
        mapCells := [{ id := 1, position := 2, name := "台北", cellType := .property,
                       price := 1000, rentBase := 50, upgradeCost := 300 }],
        specialEffects := [(1, ⟨4, 5⟩)] }
     let c0 : PurchaseCmd := { playerId := 1, cellPosition := 1 }
     let r := c0.execute s0
     let u := r.1.undo r.2.1
     r.2.2 = true ∧
     ((r.2.1.getPlayerById 1).map Player.money = some 1200) ∧
     u.2.2 = true ∧
     ((u.2.1.getPlayerById 1).map Player.money = some 2200) ∧
     ((u.2.1.getPlayerById 1).map Player.money ≠ some 2000) ∧
     ((u.2.1.getPlayerById 1).map Player.properties = some [2])) := by
  decide

/-! ### Claim C2 -/

/-- Claim C2 (code bug): money movement is required to be all-or-nothing,
but `GameManager._handle_property_landing` ignores the payer's
`spend_money` result and credits the owner unconditionally (payer with 50
cash owes 100 rent: payer keeps 50, owner gains 100), and
`GameManager.upgrade_property` raises the level via `cell.upgrade()` before
the payment attempt (owner with 100 cash and a 300 upgrade cost: the call
reports failure, no money moves, yet the level is raised). -/
theorem C2_money_not_all_or_nothing :
    (let sRent : GameState :=
      { players := [{ id := 1, name := "付", playerType := .human, money := 50, position := 0 },
                    { id := 2, name := "收", playerType := .human, money := 500 }],
        mapCells := [{ id := 1, position := 1, name := "地", cellType := .property,
                       price := 600, rentBase := 100, upgradeCost := 300, ownerId := some 2 }] }
     let r := sRent.handlePropertyLanding 1
     r.2 = .rentPaid 100 ∧
     ((r.1.getPlayerById 1).map Player.money = some 50) ∧
     ((r.1.getPlayerById 2).map Player.money = some 600)) ∧
    (let sUp : GameState :=
      { players := [{ id := 1, name := "主", playerType := .human, money := 100 }],
        mapCells := [{ id := 1, position := 1, name := "地", cellType := .property,
                       price := 600, rentBase := 100, upgradeCost := 300, ownerId := some 1 }] }
     let r := sUp.upgradeProperty 1 0
     r.2 = false ∧
     ((r.1.getCellAtPosition 0).map MapCell.level = some .house1) ∧
     ((r.1.getPlayerById 1).map Player.money = some 100)) := by
  decide

/-! ### Claim C6 -/

/-- Claim C6 counterexample: a utility cell is property-like (it carries
price, ownership and levels), yet `MapCell.get_rent` returns 0 for it at
every level, so its rent at level 1 is neither `base · 2¹` nor strictly
greater than its rent at level 0. -/
theorem C6_counterexample :
    (let c : MapCell := { id := 12, position := 13, name := "电力公司", cellType := .utility,
                          price := 1500, rentBase := 50, ownerId := some 1 }
     c.getRent = 0 ∧
     ({ c with level := .house1 } : MapCell).getRent = 0 ∧
     ¬(({ c with level := .house1 } : MapCell).getRent > c.getRent) ∧
     ({ c with level := .house1 } : MapCell).getRent ≠ c.rentBase * 2) := by
  decide

/-- Claim C6 (corrected): for cells of the categories `get_rent` actually
covers — `PROPERTY`, `AIRPORT`, `LANDMARK` — rent is `rent_base · 2^level`,
and it is strictly increasing in the level whenever the base rent is
positive; utility cells (and every other category) always rent for 0. -/
theorem C6_rent_doubling (c : MapCell)
    (h : c.cellType = .property ∨ c.cellType = .airport ∨ c.cellType = .landmark) :
    c.getRent = c.rentBase * 2 ^ c.level.val.toNat ∧
    (0 < c.rentBase → c.level.val < PropertyLevel.val .hotel →
      ({ c with level := c.level.next } : MapCell).getRent > c.getRent) := by
  obtain ⟨i, pos, n, ct, pr, rb, uc, ow, lvl⟩ := c
  rcases h with h | h | h <;> subst h <;> cases lvl <;>
    simp [MapCell.getRent, PropertyLevel.val, PropertyLevel.next] <;> omega

/-- Witness for C6: a property cell with base rent 50 at level 1 rents for
100, and upgrading it to level 2 strictly raises the rent. -/
theorem C6_rent_doubling_witness :
    (let c : MapCell := { id := 1, position := 2, name := "台北", cellType := .property,
                          price := 600, rentBase := 50, upgradeCost := 300,
                          ownerId := some 1, level := .house1 }
     c.getRent = c.rentBase * 2 ^ c.level.val.toNat ∧
     (0 < c.rentBase → c.level.val < PropertyLevel.val .hotel →
       ({ c with level := c.level.next } : MapCell).getRent > c.getRent)) :=
  C6_rent_doubling _ (Or.inl rfl)

/-! ### Claim C7 -/

/-- Claim C7 counterexample: the Event Processor is claimed to apply a
negative cash delta in full even past zero; in fact the debit goes through
`Player.spend_money`, so a player with 100 cash hit by a −300 money effect
keeps exactly 100 (the claim predicts −200). -/
theorem C7_counterexample :
    (let s : GameState :=
      { players := [{ id := 1, name := "乙", playerType := .human, money := 100 }],
        mapCells := [] }
     let s1 := s.processEvent { money := some (-300) } 1
     ((s1.getPlayerById 1).map Player.money = some 100) ∧
     ((s1.getPlayerById 1).map Player.money ≠ some (-200))) := by
  decide

/-- Claim C7 (corrected): a negative `money` effect is debited through
`Player.spend_money`: it is applied in full only when the balance covers it
and otherwise leaves the balance unchanged, so the processor never drives a
nonnegative balance negative. -/
theorem C7_negative_money_effect_guarded (s : GameState) (pid : Int) (player : Player)
    (amount : Int) (hp : s.getPlayerById pid = some player) (hneg : amount < 0) :
    (s.processEvent { money := some amount } pid).getPlayerById pid =
      some (if -amount ≤ player.money
            then { player with money := player.money + amount } else player) ∧
    (0 ≤ player.money →
      ∀ q, (s.processEvent { money := some amount } pid).getPlayerById pid = some q →
        0 ≤ q.money) := by
  have hform : s.processEvent { money := some amount } pid =
      s.setPlayer pid (fun p => (p.spendMoney (-amount)).1) := by
    have h1 : ¬(amount > 0) := by omega
    simp [GameState.processEvent, eventMoneyStage, eventBirthdayStage,
          eventHouseRepairStage, eventTaxExtraStage, eventJailStage,
          eventMoveBackStage, eventItemStage, h1]
  have hmap : (s.setPlayer pid (fun p => (p.spendMoney (-amount)).1)).getPlayerById pid =
      some ((player.spendMoney (-amount)).1) := by
    unfold GameState.getPlayerById GameState.setPlayer
    rw [find?_updateFirst_same _ _ (fun a => by rw [spendMoney_id])]
    unfold GameState.getPlayerById at hp
    rw [hp]
    rfl
  constructor
  · rw [hform, hmap]
    unfold Player.spendMoney
    by_cases hle : -amount ≤ player.money
    · rw [if_pos (show player.money ≥ -amount from hle), if_pos hle]
      simp
    · rw [if_neg (show ¬player.money ≥ -amount from hle), if_neg hle]
  · intro h0 q hq
    rw [hform, hmap] at hq
    injection hq with hq
    rw [← hq]
    exact spendMoney_nonneg player (-amount) h0

/-- Witness for C7: a player with 100 cash debited 30 by a money effect ends
with exactly 70 and a nonnegative balance. -/
theorem C7_negative_money_effect_guarded_witness :
    (let pl : Player := { id := 1, name := "乙", playerType := .human, money := 100 }
     let s : GameState := { players := [pl], mapCells := [] }
     (s.processEvent { money := some (-30) } 1).getPlayerById 1 =
       some (if -(-30 : Int) ≤ pl.money
             then { pl with money := pl.money + (-30) } else pl) ∧
     (0 ≤ pl.money →
       ∀ q, (s.processEvent { money := some (-30) } 1).getPlayerById 1 = some q →
         0 ≤ q.money)) :=
  C7_negative_money_effect_guarded
    { players := [{ id := 1, name := "乙", playerType := .human, money := 100 }],
      mapCells := [] }
    1 { id := 1, name := "乙", playerType := .human, money := 100 } (-30)
    (by decide) (by decide)

/-! ### Claim C8 -/

/-- Claim C8 counterexample: an unknown difficulty name does *not* fall back
to the Balanced (medium) strategy in every factory — the hard-mode factory
defaults to the Aggressive strategy and the easy-mode factory to the
Cautious one. -/
theorem C8_counterexample :
    HardModeGameFactory.createAIStrategy "expert" = .hardAI ∧
    HardModeGameFactory.createAIStrategy "expert" ≠ .mediumAI ∧
    EasyModeGameFactory.createAIStrategy "expert" = .easyAI ∧
    EasyModeGameFactory.createAIStrategy "expert" ≠ .mediumAI := by
  decide

/-- Claim C8 (corrected): unknown difficulty names never raise — every
factory falls back to a default — but only the plain strategy factory and
the standard-mode factory default to the Balanced (medium) strategy; the
hard-mode factory defaults to Aggressive and the easy-mode factory to
Cautious. -/
theorem C8_unknown_difficulty_defaults (d : String)
    (h1 : lowerCodes d ≠ lowerCodes "easy")
    (h2 : lowerCodes d ≠ lowerCodes "medium")
    (h3 : lowerCodes d ≠ lowerCodes "hard") :
    AIStrategyFactory.createStrategy d = .mediumAI ∧
    StandardGameFactory.createAIStrategy d = .mediumAI ∧
    HardModeGameFactory.createAIStrategy d = .hardAI ∧
    EasyModeGameFactory.createAIStrategy d = .easyAI := by
  simp [AIStrategyFactory.createStrategy, StandardGameFactory.createAIStrategy,
        HardModeGameFactory.createAIStrategy, EasyModeGameFactory.createAIStrategy,
        h1, h2, h3]

/-- Witness for C8: the difficulty string `"expert2"` is none of the known
names and each factory returns its own default. -/
theorem C8_unknown_difficulty_defaults_witness :
    AIStrategyFactory.createStrategy "expert2" = .mediumAI ∧
    StandardGameFactory.createAIStrategy "expert2" = .mediumAI ∧
    HardModeGameFactory.createAIStrategy "expert2" = .hardAI ∧
    EasyModeGameFactory.createAIStrategy "expert2" = .easyAI :=
  C8_unknown_difficulty_defaults "expert2" (by decide) (by decide) (by decide)

/-! ### Claim C5 counterexample -/

/-- Claim C5 counterexample: `MovePlayerCommand.execute` in
`src/business/commands.py` has no idempotency guard — a second call on an
already-executed command reports success again and moves the player a
second time (from 0 to 3 and then to 6). -/
theorem C5_counterexample :
    (let s : GameState :=
      { players := [{ id := 1, name := "丙", playerType := .human, money := 1000, position := 0 }],
        mapCells :=
          [{ id := 1, position := 1, name := "a", cellType := .start },
           { id := 2, position := 2, name := "b", cellType := .property },
           { id := 3, position := 3, name := "c", cellType := .property },
           { id := 4, position := 4, name := "d", cellType := .property },
           { id := 5, position := 5, name := "e", cellType := .property },
           { id := 6, position := 6, name := "f", cellType := .property },
           { id := 7, position := 7, name := "g", cellType := .property },
           { id := 8, position := 8, name := "h", cellType := .property }] }
     let c : MoveCmd := { playerId := 1, steps := 3 }
     let r1 := c.execute s
     let r2 := r1.1.execute r1.2.1
     r1.2.2 = true ∧ r1.1.executed = true ∧
     r2.2.2 = true ∧
     ((r1.2.1.getPlayerById 1).map Player.position = some 3) ∧
     ((r2.2.1.getPlayerById 1).map Player.position = some 6) ∧
     r2.2.1 ≠ r1.2.1) := by
  decide

/-- Shape of a successful `purchase_property` call: the buyer still resolves
and the cell now carries the buyer as owner. -/
theorem purchaseProperty_success_shape (s : GameState) (pid pos : Int) (s1 : GameState)
    (h : s.purchaseProperty pid pos = (s1, true)) :
    ((s1.getPlayerById pid).isSome = true) ∧
    (∃ cl, s1.getCellAtPosition pos = some cl ∧ cl.ownerId = some pid) := by
  unfold GameState.purchaseProperty at h
  split at h
  next player cell hpl hcl =>
    simp only [] at h
    split at h
    · cases h
    · split at h
      · injection h with h1 h2
        subst h1
        have hpl2 : (GameState.mk s.players s.mapCells
            (removeEffect s.specialEffects pid) s.config).getPlayerById pid = some player := hpl
        constructor
        · rw [getPlayerById_setCellAt,
              getPlayerById_setPlayer_found _ _ _ _ hpl2 (by rw [buyProperty_id])]
          rfl
        · refine ⟨{ cell with ownerId := some pid }, ?_, rfl⟩
          have hcl2 : ((GameState.mk s.players s.mapCells
              (removeEffect s.specialEffects pid) s.config).setPlayer pid
                (fun _ => (player.buyProperty cell.position
                  (pyIntMul cell.price
                    ((lookupEffect s.specialEffects pid).getD ⟨1, 1⟩))).1)).getCellAtPosition pos =
              some cell := hcl
          rw [getCellAtPosition_setCellAt_found _ _ _ _ hcl2 rfl]
      · cases h
  next h1 h2 => cases h

/-! ### Claim C5 (amended) -/

/-- Claim C5 (corrected): the idempotency guard exists only in the BLL copy —
each of its command types refuses a second `execute` outright (the
`executed` flag is checked first and is set by every successful execute) —
while in the business copy only `PurchasePropertyCommand` refuses
re-execution, and only indirectly, because the first execute records an
owner and the ownership check then fails; its other command types re-execute
with a double effect (see the counterexample). -/
theorem C5_second_execute_guards (s : GameState) :
    (∀ c : BLLPurchaseCmd, c.executed = true → c.execute s = (c, s, false)) ∧
    (∀ c : BLLUpgradeCmd, c.executed = true → c.execute s = (c, s, false)) ∧
    (∀ c : BLLPayTaxCmd, c.executed = true → c.execute s = (c, s, false)) ∧
    (∀ c : BLLMoveCmd, c.executed = true → c.execute s = (c, s, false)) ∧
    (∀ (c c1 : BLLPurchaseCmd) (s1 : GameState),
      c.execute s = (c1, s1, true) → c1.executed = true) ∧
    (∀ (c c1 : BLLUpgradeCmd) (s1 : GameState),
      c.execute s = (c1, s1, true) → c1.executed = true) ∧
    (∀ (c c1 : BLLPayTaxCmd) (s1 : GameState),
      c.execute s = (c1, s1, true) → c1.executed = true) ∧
    (∀ (c c1 : BLLMoveCmd) (s1 : GameState),
      c.execute s = (c1, s1, true) → c1.executed = true) ∧
    (∀ (c c1 : PurchaseCmd) (s1 : GameState),
      c.execute s = (c1, s1, true) → c1.execute s1 = (c1, s1, false)) := by
  refine ⟨?_, ?_, ?_, ?_, ?_, ?_, ?_, ?_, ?_⟩
  · intro c hc; simp [BLLPurchaseCmd.execute, hc]
  · intro c hc; simp [BLLUpgradeCmd.execute, hc]
  · intro c hc; simp [BLLPayTaxCmd.execute, hc]
  · intro c hc; simp [BLLMoveCmd.execute, hc]
  · intro c c1 s1 h
    unfold BLLPurchaseCmd.execute at h
    simp only [] at h
    repeat' split at h
    all_goals (injection h with ha hb; injection hb with hb1 hb2;
               first | exact Bool.noConfusion hb2 | rw [← ha])
  · intro c c1 s1 h
    unfold BLLUpgradeCmd.execute at h
    simp only [] at h
    repeat' split at h
    all_goals (injection h with ha hb; injection hb with hb1 hb2;
               first | exact Bool.noConfusion hb2 | rw [← ha])
  · intro c c1 s1 h
    unfold BLLPayTaxCmd.execute at h
    simp only [] at h
    repeat' split at h
    all_goals (injection h with ha hb; injection hb with hb1 hb2;
               first | exact Bool.noConfusion hb2 | rw [← ha])
  · intro c c1 s1 h
    unfold BLLMoveCmd.execute at h
    simp only [] at h
    repeat' split at h
    all_goals (injection h with ha hb; injection hb with hb1 hb2;
               first | exact Bool.noConfusion hb2 | rw [← ha])
  · intro c c1 s1 h
    unfold PurchaseCmd.execute at h
    split at h
    next player cell hpl hcl =>
      simp only [] at h
      split at h
      · cases h
      · split at h
        · split at h
          next hr =>
            injection h with h1 h2
            injection h2 with h2 h3
            have hps : s.purchaseProperty c.playerId c.cellPosition = (s1, true) := by
              rw [show s.purchaseProperty c.playerId c.cellPosition =
                ((s.purchaseProperty c.playerId c.cellPosition).1,
                 (s.purchaseProperty c.playerId c.cellPosition).2) from rfl, hr, h2]
            obtain ⟨hqs, ⟨cl, hcl1, hcl2⟩⟩ :=
              purchaseProperty_success_shape s c.playerId c.cellPosition s1 hps
            obtain ⟨q, hq⟩ := Option.isSome_iff_exists.mp hqs
            subst h1
            unfold PurchaseCmd.execute
            rw [hq, hcl1]
            simp [hcl2]
          · cases h
        · cases h
    next h1 h2 => cases h

/-- Witness for C5: an already-executed BLL move command is refused without
any state change, and a fresh BLL move command's successful execute sets its
`executed` flag. -/
theorem C5_second_execute_guards_witness :
    (BLLMoveCmd.execute { playerId := 1, steps := 1, originalPosition := 0, executed := true }
      { players := [{ id := 1, name := "戊", playerType := .human, money := 1000 }],
        mapCells := [{ id := 1, position := 1, name := "a", cellType := .start },
                     { id := 2, position := 2, name := "b", cellType := .property }] } =
      ({ playerId := 1, steps := 1, originalPosition := 0, executed := true },
       { players := [{ id := 1, name := "戊", playerType := .human, money := 1000 }],
         mapCells := [{ id := 1, position := 1, name := "a", cellType := .start },
                      { id := 2, position := 2, name := "b", cellType := .property }] },
       false)) ∧
    BLLMoveCmd.executed
      { playerId := 1, steps := 1, originalPosition := 0, executed := true } = true :=
  ⟨(C5_second_execute_guards
      { players := [{ id := 1, name := "戊", playerType := .human, money := 1000 }],
        mapCells := [{ id := 1, position := 1, name := "a", cellType := .start },
                     { id := 2, position := 2, name := "b", cellType := .property }] }).2.2.2.1
      { playerId := 1, steps := 1, originalPosition := 0, executed := true } rfl,
   (C5_second_execute_guards
      { players := [{ id := 1, name := "戊", playerType := .human, money := 1000 }],
        mapCells := [{ id := 1, position := 1, name := "a", cellType := .start },
                     { id := 2, position := 2, name := "b", cellType := .property }] }).2.2.2.2.2.2.2.1
      { playerId := 1, steps := 1, originalPosition := 0 }
      { playerId := 1, steps := 1, originalPosition := 0, executed := true }
      { players := [{ id := 1, name := "戊", playerType := .human, money := 1000, position := 1 }],
        mapCells := [{ id := 1, position := 1, name := "a", cellType := .start },
                     { id := 2, position := 2, name := "b", cellType := .property }] }
      (by decide)⟩

/-! ### Claim C4 -/

theorem invokerInv_executeCommand (inv : CommandInvoker) (cmd : Cmd) (s : GameState)
    (h : InvokerInv inv) : InvokerInv (inv.executeCommand cmd s).1 := by
  obtain ⟨h1, h2, h3⟩ := h
  unfold CommandInvoker.executeCommand
  simp only []
  by_cases hex : (cmd.execute s).2.2 = true
  · simp only [hex, if_true]
    split
    next hk =>
      refine ⟨?_, ?_, ?_⟩ <;>
        simp only [List.length_drop, List.length_append, List.length_take,
                   List.length_cons, List.length_nil] <;>
        (simp only [List.length_append, List.length_take, List.length_cons,
                    List.length_nil] at hk; omega)
    next hk =>
      refine ⟨?_, ?_, ?_⟩ <;>
        simp only [List.length_append, List.length_take, List.length_cons,
                   List.length_nil] <;>
        (simp only [List.length_append, List.length_take, List.length_cons,
                    List.length_nil] at hk; omega)
  · have hex' : (cmd.execute s).2.2 = false := by
      revert hex; cases (cmd.execute s).2.2 <;> simp
    simp only [hex', Bool.false_eq_true, if_false]
    exact ⟨h1, h2, h3⟩

theorem invokerInv_mk (h : List Cmd) (i : Int) (m : Nat) (l1 : h.length ≤ m)
    (l2 : -1 ≤ i) (l3 : i < (h.length : Int)) : InvokerInv ⟨h, i, m⟩ :=
  ⟨l1, l2, l3⟩

theorem invokerInv_undo (inv : CommandInvoker) (s : GameState)
    (h : InvokerInv inv) : InvokerInv (inv.undo s).1 := by
  obtain ⟨h1, h2, h3⟩ := h
  unfold CommandInvoker.undo
  split
  next hcu =>
    simp only [CommandInvoker.canUndo, ge_iff_le, decide_eq_true_eq] at hcu
    split
    next cmd hget =>
      simp only []
      split
      · exact invokerInv_mk _ _ _ (by simp only [List.length_set]; omega) (by omega)
          (by simp only [List.length_set]; omega)
      · exact invokerInv_mk _ _ _ (by simp only [List.length_set]; omega) h2
          (by simp only [List.length_set]; omega)
    next => exact ⟨h1, h2, h3⟩
  next => exact ⟨h1, h2, h3⟩

theorem invokerInv_redo (inv : CommandInvoker) (s : GameState)
    (h : InvokerInv inv) : InvokerInv (inv.redo s).1 := by
  obtain ⟨h1, h2, h3⟩ := h
  unfold CommandInvoker.redo
  split
  next hcr =>
    simp only [CommandInvoker.canRedo, decide_eq_true_eq] at hcr
    rcases hget : inv.commandHistory.get? (inv.currentIndex + 1).toNat with _ | cmd
    · simp only [hget]
      exact ⟨h1, h2, h3⟩
    · simp only [hget]
      split
      · exact invokerInv_mk _ _ _ (by simp only [List.length_set]; omega) (by omega)
          (by simp only [List.length_set]; omega)
      · exact invokerInv_mk _ _ _ (by simp only [List.length_set]; omega) (by omega)
          (by simp only [List.length_set]; omega)
  next => exact ⟨h1, h2, h3⟩

theorem runAll_succeed_shape (cmds : List Cmd) (s : GameState) (h0 : List Cmd) (m : Nat)
    (hlen : h0.length ≤ m) (hsucc : allSucceed cmds s = true) :
    (runAll ⟨h0, (h0.length : Int) - 1, m⟩ cmds s).1 =
      ⟨(h0 ++ execChain cmds s).drop (h0.length + cmds.length - m),
       (min ((h0.length : Int) + (cmds.length : Int)) (m : Int)) - 1, m⟩ := by
  induction cmds generalizing s h0 with
  | nil =>
      simp only [runAll, execChain, List.append_nil, List.length_nil, Nat.add_zero,
                 CommandInvoker.mk.injEq]
      refine ⟨?_, ?_, trivial⟩
      · rw [Nat.sub_eq_zero_of_le hlen, List.drop_zero]
      · omega
  | cons c rest ih =>
      unfold allSucceed at hsucc
      rw [Bool.and_eq_true] at hsucc
      obtain ⟨hc, hrest⟩ := hsucc
      unfold runAll CommandInvoker.executeCommand
      simp only [hc, if_true]
      have htake : ((h0.length : Int) - 1 + 1).toNat = h0.length := by omega
      rw [htake, List.take_length]
      simp only [List.length_append, List.length_cons, List.length_nil]
      split
      next hk =>
        have hm : h0.length = m := by omega
        have hidx : (h0.length : Int) - 1 + 1 - 1 =
            ((((h0 ++ [(c.execute s).1]).drop 1).length : Int)) - 1 := by
          simp only [List.length_drop, List.length_append, List.length_cons,
                     List.length_nil]
          omega
        rw [hidx, ih ((c.execute s).2.1) ((h0 ++ [(c.execute s).1]).drop 1)
              (by simp only [List.length_drop, List.length_append, List.length_cons,
                             List.length_nil]; omega) hrest]
        show CommandInvoker.mk _ _ _ = CommandInvoker.mk _ _ _
        simp only [CommandInvoker.mk.injEq]
        refine ⟨?_, ?_, trivial⟩
        · have e1 : ((h0 ++ [(c.execute s).1]).drop 1).length + rest.length - m =
              rest.length := by
            simp only [List.length_drop, List.length_append, List.length_cons,
                       List.length_nil]
            omega
          have e2 : h0.length + (rest.length + 1) - m = rest.length + 1 := by omega
          rw [e1, e2]
          cases h0 with
          | nil => simp [execChain]
          | cons a t => simp [execChain]
        · simp only [List.length_drop, List.length_append, List.length_cons,
                     List.length_nil, execChain]
          omega
      next hk =>
        have hidx : (h0.length : Int) - 1 + 1 =
            (((h0 ++ [(c.execute s).1]).length : Int)) - 1 := by
          simp only [List.length_append, List.length_cons, List.length_nil]
          omega
        rw [hidx, ih ((c.execute s).2.1) (h0 ++ [(c.execute s).1])
              (by simp only [List.length_append, List.length_cons, List.length_nil]
                  omega) hrest]
        show CommandInvoker.mk _ _ _ = CommandInvoker.mk _ _ _
        simp only [CommandInvoker.mk.injEq]
        refine ⟨?_, ?_, trivial⟩
        · have e1 : (h0 ++ [(c.execute s).1]).length + rest.length =
              h0.length + (rest.length + 1) := by
            simp only [List.length_append, List.length_cons, List.length_nil]
            omega
          rw [e1]
          simp [execChain]
        · simp only [List.length_append, List.length_cons, List.length_nil, execChain]
          omega

theorem execChain_length (cmds : List Cmd) (s : GameState) :
    (execChain cmds s).length = cmds.length := by
  induction cmds generalizing s with
  | nil => rfl
  | cons c rest ih => simp [execChain, ih]

/-- Claim C4 (confirmed): the command history never exceeds the configured
capacity and the cursor stays in `[-1, size - 1]` after every
execute/undo/redo; and a fresh invoker with capacity `m` that successfully
executes `m + 1` commands retains exactly `m` entries — the stored history
is the executed chain with its oldest entry dropped (so the first command is
evicted and no longer reachable by undo) — with the cursor on the last
retained entry. -/
theorem C4_history_bound_and_eviction
    (inv : CommandInvoker) (cmd : Cmd) (cmds : List Cmd) (s sx : GameState) (m : Nat)
    (hInv : InvokerInv inv)
    (hsucc : allSucceed cmds s = true)
    (hlen : cmds.length = m + 1) :
    InvokerInv (inv.executeCommand cmd sx).1 ∧
    InvokerInv (inv.undo sx).1 ∧
    InvokerInv (inv.redo sx).1 ∧
    (runAll ⟨[], -1, m⟩ cmds s).1.commandHistory = (execChain cmds s).drop 1 ∧
    (runAll ⟨[], -1, m⟩ cmds s).1.commandHistory.length = m ∧
    (runAll ⟨[], -1, m⟩ cmds s).1.currentIndex = (m : Int) - 1 := by
  have hshape := runAll_succeed_shape cmds s [] m (by simp) hsucc
  simp only [List.length_nil, Nat.cast_zero, zero_sub, List.nil_append, Nat.zero_add,
             zero_add, hlen] at hshape
  have hdrop : m + 1 - m = 1 := by omega
  rw [hdrop] at hshape
  refine ⟨invokerInv_executeCommand _ _ _ hInv, invokerInv_undo _ _ hInv,
          invokerInv_redo _ _ hInv, ?_, ?_, ?_⟩
  · rw [hshape]
  · rw [hshape]
    simp only [List.length_drop, execChain_length, hlen]
    omega
  · rw [hshape]
    simp only []
    omega

/-- Witness for C4: a fresh capacity-2 invoker given three always-succeeding
GoToJail commands keeps two entries, drops the first executed command, and
ends with the cursor at index 1; the preservation conjuncts are applied to a
concrete valid invoker. -/
theorem C4_history_bound_and_eviction_witness :
    (let s : GameState :=
      { players := [{ id := 1, name := "己", playerType := .human, money := 1000 }],
        mapCells := [] }
     let cmds : List Cmd := [.goToJail { playerId := 1 }, .goToJail { playerId := 1 },
                             .goToJail { playerId := 1 }]
     let inv : CommandInvoker := { commandHistory := [], currentIndex := -1, maxHistory := 50 }
     InvokerInv (inv.executeCommand (.goToJail { playerId := 1 }) s).1 ∧
     InvokerInv (inv.undo s).1 ∧
     InvokerInv (inv.redo s).1 ∧
     (runAll ⟨[], -1, 2⟩ cmds s).1.commandHistory = (execChain cmds s).drop 1 ∧
     (runAll ⟨[], -1, 2⟩ cmds s).1.commandHistory.length = 2 ∧
     (runAll ⟨[], -1, 2⟩ cmds s).1.currentIndex = (2 : Int) - 1) :=
  C4_history_bound_and_eviction
    { commandHistory := [], currentIndex := -1, maxHistory := 50 }
    (.goToJail { playerId := 1 })
    [.goToJail { playerId := 1 }, .goToJail { playerId := 1 }, .goToJail { playerId := 1 }]
    { players := [{ id := 1, name := "己", playerType := .human, money := 1000 }],
      mapCells := [] }
    { players := [{ id := 1, name := "己", playerType := .human, money := 1000 }],
      mapCells := [] }
    2 (by exact ⟨by decide, by decide, by decide⟩) (by decide) rfl

/-! ### Claim C9 -/

/-- Claim C9 counterexample: the two `PurchasePropertyCommand` copies are not
behaviorally equivalent when a purchase discount is active.  With 900 cash, a
1000-price cell and an 8/10 discount, the business copy refuses (it checks
the undiscounted price) while the BLL copy buys for 800; and with 2000 cash
the business copy debits 800 but refunds 1000 on undo (leaving the map
position in `properties`), while the BLL copy refunds exactly 800 and
removes the position. -/
theorem C9_counterexample :
    (let sA : GameState :=
      { players := [{ id := 1, name := "丁", playerType := .human, money := 900, position := 1 }],
        mapCells := [{ id := 1, position := 2, name := "地", cellType := .property,
                       price := 1000, rentBase := 50, upgradeCost := 300 }],
        specialEffects := [(1, ⟨4, 5⟩)] }
     let biz := PurchaseCmd.execute { playerId := 1, cellPosition := 1 } sA
     let bll := BLLPurchaseCmd.execute { playerId := 1, cellPosition := 2, originalOwner := none } sA
     biz.2.2 = false ∧ bll.2.2 = true ∧
     ((bll.2.1.getPlayerById 1).map Player.money = some 100)) ∧
    (let sB : GameState :=
      { players := [{ id := 1, name := "丁", playerType := .human, money := 2000, position := 1 }],
        mapCells := [{ id := 1, position := 2, name := "地", cellType := .property,
                       price := 1000, rentBase := 50, upgradeCost := 300 }],
        specialEffects := [(1, ⟨4, 5⟩)] }
     let biz := PurchaseCmd.execute { playerId := 1, cellPosition := 1 } sB
     let bizU := biz.1.undo biz.2.1
     let bll := BLLPurchaseCmd.execute { playerId := 1, cellPosition := 2, originalOwner := none } sB
     let bllU := bll.1.undo bll.2.1
     biz.2.2 = true ∧ bll.2.2 = true ∧
     ((biz.2.1.getPlayerById 1).map Player.money = some 1200) ∧
     ((bll.2.1.getPlayerById 1).map Player.money = some 1200) ∧
     ((bizU.2.1.getPlayerById 1).map Player.money = some 2200) ∧
     ((bllU.2.1.getPlayerById 1).map Player.money = some 2000) ∧
     ((bizU.2.1.getPlayerById 1).map Player.properties = some [2]) ∧
     ((bllU.2.1.getPlayerById 1).map Player.properties = some [])) := by
  decide

/-- Claim C9 (corrected): when no purchase discount is pending for the buyer,
the two copies' `execute` perform the same state transformation and report
the same result — the same price is debited, the same ownership recorded and
the same map position appended.  (Their undos still differ on the
`properties` list and under discounts, per the counterexample.) -/
theorem C9_purchase_execute_equiv (s : GameState) (pid pos : Int)
    (player : Player) (cell : MapCell)
    (hp : s.getPlayerById pid = some player)
    (hc : s.getCellAtPosition pos = some cell)
    (hd : lookupEffect s.specialEffects pid = none) :
    (PurchaseCmd.execute { playerId := pid, cellPosition := pos } s).2 =
    (BLLPurchaseCmd.execute (BLLPurchaseCmd.make player cell) s).2 := by
  have hpos : cell.position = pos + 1 := by
    have h1 := List.find?_some hc
    simpa using h1
  have hpid : player.id = pid := by
    have h1 := List.find?_some hp
    simpa using h1
  have hcm : s.getCellByMapPos (pos + 1) = some cell := by
    unfold GameState.getCellByMapPos
    unfold GameState.getCellAtPosition at hc
    exact hc
  simp only [PurchaseCmd.execute, BLLPurchaseCmd.execute, BLLPurchaseCmd.make,
             hpid, hpos, hp, hc, hcm, hd, Option.getD, pyIntMul_one,
             Bool.false_eq_true, if_false]
  cases ho : cell.ownerId with
  | some o => simp [ho]
  | none =>
      simp only [ho, Option.isSome_none, Bool.false_eq_true, if_false]
      by_cases hm : player.money ≥ cell.price
      · have hm' : ¬player.money < cell.price := by omega
        simp only [hm, if_true, hm', if_false,
                   GameState.purchaseProperty, hpid, hpos, hp, hc, ho, hd,
                   Option.isSome_none, Bool.false_eq_true, Option.getD,
                   pyIntMul_one, removeEffect,
                   Player.buyProperty, Player.spendMoney, if_pos hm]
        simp only [GameState.setPlayer, GameState.setCellAt, GameState.setCellByMapPos,
                   hpos]
        rw [updateFirst_fuse _ _ _ _ (fun a => by split <;> rfl)]
        simp only [Prod.mk.injEq, GameState.mk.injEq, and_true, true_and]
        refine ⟨?_, ?_⟩
        · apply updateFirst_congr
          intro a ha
          unfold GameState.getPlayerById at hp
          rw [hp] at ha
          injection ha with ha
          subst ha
          simp [hm, hpid]
        · rw [hd]
      · have hm' : player.money < cell.price := by omega
        simp [hm, hm']

/-- Witness for C9: with no pending discount, a player with 2000 cash buying
a 1000-price cell gets the same resulting state and flag from both command
copies. -/
theorem C9_purchase_execute_equiv_witness :
    (PurchaseCmd.execute { playerId := 1, cellPosition := 1 }
      { players := [{ id := 1, name := "丁", playerType := .human, money := 2000, position := 1 }],
        mapCells := [{ id := 1, position := 2, name := "地", cellType := .property,
                       price := 1000, rentBase := 50, upgradeCost := 300 }] }).2 =
    (BLLPurchaseCmd.execute
      (BLLPurchaseCmd.make
        { id := 1, name := "丁", playerType := .human, money := 2000, position := 1 }
        { id := 1, position := 2, name := "地", cellType := .property,
          price := 1000, rentBase := 50, upgradeCost := 300 })
      { players := [{ id := 1, name := "丁", playerType := .human, money := 2000, position := 1 }],
        mapCells := [{ id := 1, position := 2, name := "地", cellType := .property,
                       price := 1000, rentBase := 50, upgradeCost := 300 }] }).2 :=
  C9_purchase_execute_equiv
    { players := [{ id := 1, name := "丁", playerType := .human, money := 2000, position := 1 }],
      mapCells := [{ id := 1, position := 2, name := "地", cellType := .property,
                     price := 1000, rentBase := 50, upgradeCost := 300 }] }
    1 1
    { id := 1, name := "丁", playerType := .human, money := 2000, position := 1 }
    { id := 1, position := 2, name := "地", cellType := .property,
      price := 1000, rentBase := 50, upgradeCost := 300 }
    (by decide) (by decide) (by decide)

/-! ### Claim C10 -/

theorem buyProperty_money_nonneg (p : Player) (i pr : Int) (h : 0 ≤ p.money) :
    0 ≤ (p.buyProperty i pr).1.money := by
  have hs := spendMoney_nonneg p pr h
  rcases hr : p.spendMoney pr with ⟨p1, ok⟩
  rw [hr] at hs
  simp only [Player.buyProperty, hr]
  cases ok <;> simpa using hs

theorem getRent_nonneg (c : MapCell) (h : 0 ≤ c.rentBase) : 0 ≤ c.getRent := by
  unfold MapCell.getRent
  split
  · split <;> omega
  · omega

theorem moneyInv_setPlayer (s : GameState) (pid : Int) (f : Player → Player)
    (hf : ∀ p ∈ s.players, 0 ≤ p.money → 0 ≤ (f p).money)
    (h : MoneyInv s) : MoneyInv (s.setPlayer pid f) :=
  ⟨forall_updateFirst _ _ _ h.1 hf, h.2⟩

theorem moneyInv_setCellAt (s : GameState) (pos : Int) (f : MapCell → MapCell)
    (hf : ∀ c ∈ s.mapCells, 0 ≤ c.rentBase → 0 ≤ (f c).rentBase)
    (h : MoneyInv s) : MoneyInv (s.setCellAt pos f) :=
  ⟨h.1, forall_updateFirst _ _ _ h.2 hf⟩

theorem moneyInv_handlePropertyLanding (s : GameState) (pid : Int)
    (h : MoneyInv s) : MoneyInv (s.handlePropertyLanding pid).1 := by
  unfold GameState.handlePropertyLanding
  split
  · exact h
  next player hpl =>
    split
    · exact h
    next cell hcl =>
      split
      · exact h
      next oid =>
        split
        · exact h
        · split
          · exact moneyInv_setPlayer _ _ _ (fun p _ hm => hm) h
          · have hcellmem : cell ∈ s.mapCells := List.mem_of_find?_eq_some hcl
            have hrent : 0 ≤ cell.getRent := getRent_nonneg _ (h.2 _ hcellmem)
            simp only []
            split
            · exact moneyInv_setPlayer _ _ _ (fun p _ hm => add_nonneg hm hrent)
                (moneyInv_setPlayer _ _ _ (fun p _ hm => spendMoney_nonneg p _ hm) h)
            · exact moneyInv_setPlayer _ _ _ (fun p _ hm => spendMoney_nonneg p _ hm) h

theorem moneyInv_handleTaxLanding (s : GameState) (pid : Int)
    (h : MoneyInv s) : MoneyInv (s.handleTaxLanding pid).1 := by
  unfold GameState.handleTaxLanding
  split
  · exact h
  next player hpl =>
    split
    · exact h
    next cell hcl =>
      exact moneyInv_setPlayer _ _ _ (fun p _ hm => spendMoney_nonneg p _ hm) h

theorem moneyInv_purchaseProperty (s : GameState) (pid pos : Int)
    (h : MoneyInv s) : MoneyInv (s.purchaseProperty pid pos).1 := by
  unfold GameState.purchaseProperty
  split
  next player cell hpl hcl =>
    have hplmem : player ∈ s.players := List.mem_of_find?_eq_some hpl
    split
    · exact h
    · simp only []
      split
      · refine moneyInv_setCellAt _ _ _ (fun c _ hr => hr) ?_
        refine moneyInv_setPlayer _ _ _ ?_ ⟨h.1, h.2⟩
        intro p _ _
        exact buyProperty_money_nonneg player _ _ (h.1 player hplmem)
      · refine moneyInv_setPlayer _ _ _ ?_ ⟨h.1, h.2⟩
        intro p _ _
        exact buyProperty_money_nonneg player _ _ (h.1 player hplmem)
  next => exact h

theorem upgrade_rentBase (c : MapCell) : c.upgrade.1.rentBase = c.rentBase := by
  unfold MapCell.upgrade
  split <;> rfl

theorem moneyInv_upgradeProperty (s : GameState) (pid pos : Int)
    (h : MoneyInv s) : MoneyInv (s.upgradeProperty pid pos).1 := by
  unfold GameState.upgradeProperty
  split
  next player cell hpl hcl =>
    have hplmem : player ∈ s.players := List.mem_of_find?_eq_some hpl
    have hclmem : cell ∈ s.mapCells := List.mem_of_find?_eq_some hcl
    split
    · exact h
    · simp only []
      have hcellinv : MoneyInv (s.setCellAt pos fun _ => cell.upgrade.1) :=
        moneyInv_setCellAt _ _ _
          (fun c _ _ => by rw [upgrade_rentBase]; exact h.2 cell hclmem) h
      have hmoney : 0 ≤ (player.spendMoney cell.upgrade.2).1.money :=
        spendMoney_nonneg player _ (h.1 player hplmem)
      split
      · split
        · exact moneyInv_setPlayer _ _ _ (fun p _ _ => hmoney) hcellinv
        · exact moneyInv_setPlayer _ _ _ (fun p _ _ => hmoney) hcellinv
      · exact hcellinv
  next => exact h

theorem moneyInv_payJailFine (s : GameState) (pid : Int)
    (h : MoneyInv s) : MoneyInv (s.payJailFine pid) :=
  moneyInv_setPlayer _ _ _ (fun p _ hm => tryLeaveJail_nonneg p true hm) h

theorem birthdayCollect_nonneg (players : List Player) (pid amt : Int)
    (h : ∀ p ∈ players, 0 ≤ p.money) :
    (∀ p ∈ (birthdayCollect players pid amt).1, 0 ≤ p.money) ∧
    (0 ≤ amt → 0 ≤ (birthdayCollect players pid amt).2) := by
  induction players with
  | nil =>
      refine ⟨?_, fun _ => le_refl 0⟩
      intro p hp
      cases hp
  | cons q rest ih =>
      obtain ⟨ih1, ih2⟩ := ih (fun p hp => h p (List.mem_cons_of_mem _ hp))
      have hq : 0 ≤ q.money := h q (List.mem_cons_self _ _)
      unfold birthdayCollect
      simp only []
      split
      · constructor
        · intro p hp
          rcases List.mem_cons.mp hp with rfl | hp2
          · exact spendMoney_nonneg q amt hq
          · exact ih1 p hp2
        · intro hamt
          refine add_nonneg ?_ (ih2 hamt)
          split
          · exact hamt
          · exact le_refl 0
      · constructor
        · intro p hp
          rcases List.mem_cons.mp hp with rfl | hp2
          · exact hq
          · exact ih1 p hp2
        · exact ih2

theorem moneyInv_eventMoneyStage (s : GameState) (e : EventEffect) (pid : Int)
    (h : MoneyInv s) : MoneyInv (eventMoneyStage s e pid) := by
  unfold eventMoneyStage
  split
  next amount hm =>
    split
    next hgt =>
      exact moneyInv_setPlayer _ _ _ (fun p _ hp => add_nonneg hp (by omega)) h
    next hng =>
      exact moneyInv_setPlayer _ _ _ (fun p _ hp => spendMoney_nonneg p _ hp) h
  next => exact h

theorem moneyInv_eventBirthdayStage (s : GameState) (e : EventEffect) (pid : Int)
    (hb : ∀ b, e.birthday = some b → 0 ≤ b)
    (h : MoneyInv s) : MoneyInv (eventBirthdayStage s e pid) := by
  unfold eventBirthdayStage
  split
  next amount hbd =>
    have hamt := hb amount hbd
    obtain ⟨H1, H2⟩ := birthdayCollect_nonneg s.players pid amount h.1
    exact moneyInv_setPlayer _ _ _ (fun p _ hp => add_nonneg hp (H2 hamt)) ⟨H1, h.2⟩
  next => exact h

theorem moneyInv_eventHouseRepairStage (s : GameState) (e : EventEffect) (pid : Int)
    (h : MoneyInv s) : MoneyInv (eventHouseRepairStage s e pid) := by
  unfold eventHouseRepairStage
  split
  · split
    · exact moneyInv_setPlayer _ _ _ (fun p _ hp => spendMoney_nonneg p _ hp) h
    · exact h
  · exact h

theorem moneyInv_eventTaxExtraStage (s : GameState) (e : EventEffect) (pid : Int)
    (h : MoneyInv s) : MoneyInv (eventTaxExtraStage s e pid) := by
  unfold eventTaxExtraStage
  split
  · split
    · exact moneyInv_setPlayer _ _ _ (fun p _ hp => spendMoney_nonneg p _ hp) h
    · exact h
  · exact h

theorem moneyInv_eventJailStage (s : GameState) (e : EventEffect) (pid : Int)
    (h : MoneyInv s) : MoneyInv (eventJailStage s e pid) := by
  unfold eventJailStage
  split
  · exact moneyInv_setPlayer _ _ _ (fun p _ hp => hp) h
  · exact h

theorem moneyInv_eventMoveBackStage (s : GameState) (e : EventEffect) (pid : Int)
    (h : MoneyInv s) : MoneyInv (eventMoveBackStage s e pid) := by
  unfold eventMoveBackStage
  split
  · exact moneyInv_setPlayer _ _ _ (fun p _ hp => hp) h
  · exact h

theorem moneyInv_eventItemStage (s : GameState) (e : EventEffect) (pid : Int)
    (h : MoneyInv s) : MoneyInv (eventItemStage s e pid) := by
  unfold eventItemStage
  split
  · exact moneyInv_setPlayer _ _ _ (fun p _ hp => hp) h
  · exact h

theorem moneyInv_processEvent (s : GameState) (e : EventEffect) (pid : Int)
    (hb : ∀ b, e.birthday = some b → 0 ≤ b)
    (h : MoneyInv s) : MoneyInv (s.processEvent e pid) :=
  moneyInv_eventItemStage _ _ _
    (moneyInv_eventMoveBackStage _ _ _
      (moneyInv_eventJailStage _ _ _
        (moneyInv_eventTaxExtraStage _ _ _
          (moneyInv_eventHouseRepairStage _ _ _
            (moneyInv_eventBirthdayStage _ _ _ hb
              (moneyInv_eventMoneyStage _ _ _ h))))))

theorem catalog_birthday_nonneg (e : GameEvent)
    (he : e ∈ createChanceEvents ∨ e ∈ createMisfortuneEvents) :
    ∀ b, e.effect.birthday = some b → 0 ≤ b := by
  rcases he with he | he <;>
    simp only [createChanceEvents, createMisfortuneEvents, List.mem_cons,
               List.mem_singleton, List.not_mem_nil, or_false] at he <;>
    rcases he with rfl | rfl | rfl | rfl | rfl | rfl | rfl | rfl | rfl | rfl <;>
    (intro b hb; simp at hb; try omega)

theorem moneyInv_engineStep (s s1 : GameState) (hst : EngineStep s s1)
    (h : MoneyInv s) : MoneyInv s1 := by
  cases hst with
  | propertyLanding pid => exact moneyInv_handlePropertyLanding _ _ h
  | taxLanding pid => exact moneyInv_handleTaxLanding _ _ h
  | chanceEvent e pid he =>
      exact moneyInv_processEvent _ _ _ (catalog_birthday_nonneg e (Or.inl he)) h
  | misfortuneEvent e pid he =>
      exact moneyInv_processEvent _ _ _ (catalog_birthday_nonneg e (Or.inr he)) h
  | purchase pid cellPos => exact moneyInv_purchaseProperty _ _ _ h
  | upgrade pid cellPos => exact moneyInv_upgradeProperty _ _ _ h
  | jailFine pid => exact moneyInv_payJailFine _ _ h

/-- Claim C10 (confirmed): in every state reachable through the engine's
money-moving operations — rent and tax charging, catalog event processing,
purchases, upgrades and jail-fine payment — from a state with nonnegative
balances (and nonnegative base rents, as shipped), every player's money
stays nonnegative: every debit goes through `Player.spend_money`, so the
spec's negative-cash bankruptcy trigger is unreachable along these paths. -/
theorem C10_money_never_negative (s s1 : GameState) (h : MoneyInv s)
    (hreach : Relation.ReflTransGen EngineStep s s1) :
    ∀ p ∈ s1.players, 0 ≤ p.money := by
  have hinv : MoneyInv s1 := by
    induction hreach with
    | refl => exact h
    | tail hab hstep ih => exact moneyInv_engineStep _ _ hstep ih
  exact hinv.1

/-- Witness for C10: one purchase step from a concrete 2-player state keeps
every balance nonnegative. -/
theorem C10_money_never_negative_witness :
    (((GameState.purchaseProperty
      { players := [{ id := 1, name := "庚", playerType := .human, money := 15000 },
                    { id := 2, name := "辛", playerType := .human, money := 15000 }],
        mapCells := [{ id := 1, position := 1, name := "台北", cellType := .property,
                       price := 600, rentBase := 50, upgradeCost := 300 }] }
      1 0).1).players.all fun p => decide (0 ≤ p.money)) = true := by
  rw [List.all_eq_true]
  intro p hp
  exact decide_eq_true
    (C10_money_never_negative
      { players := [{ id := 1, name := "庚", playerType := .human, money := 15000 },
                    { id := 2, name := "辛", playerType := .human, money := 15000 }],
        mapCells := [{ id := 1, position := 1, name := "台北", cellType := .property,
                       price := 600, rentBase := 50, upgradeCost := 300 }] }
      _ ⟨by decide, by decide⟩
      (Relation.ReflTransGen.single
        (EngineStep.purchase
          { players := [{ id := 1, name := "庚", playerType := .human, money := 15000 },
                        { id := 2, name := "辛", playerType := .human, money := 15000 }],
            mapCells := [{ id := 1, position := 1, name := "台北", cellType := .property,
                           price := 600, rentBase := 50, upgradeCost := 300 }] }
          1 0)) p hp)

/-! ### Claim C3 -/

theorem spend_then_add (p : Player) (a : Int) (h : (p.spendMoney a).2 = true) :
    ((p.spendMoney a).1).addMoney a = p := by
  unfold Player.spendMoney at h ⊢
  split
  next hge =>
      show ({ p with money := p.money - a + a } : Player) = p
      have hm : p.money - a + a = p.money := by omega
      rw [hm]
  next hlt =>
      rw [if_neg hlt] at h
      exact nomatch h

theorem add_then_spend (p : Player) (a : Int) (h : 0 ≤ p.money) :
    ((p.addMoney a).spendMoney a).1 = p := by
  unfold Player.addMoney Player.spendMoney
  split
  next hge =>
      show ({ p with money := p.money + a - a } : Player) = p
      have hm : p.money + a - a = p.money := by omega
      rw [hm]
  next hlt =>
      exfalso
      have h2 : ¬(p.money + a ≥ a) := hlt
      omega

theorem setPlayer_cancel (s : GameState) (pid : Int) (f g : Player → Player)
    (h : ∀ a, s.getPlayerById pid = some a → (g a).id = a.id ∧ f (g a) = a) :
    (s.setPlayer pid g).setPlayer pid f = s := by
  have h2 : updateFirst (fun p => p.id == pid) f
      (updateFirst (fun p => p.id == pid) g s.players) = s.players := by
    apply updateFirst_cancel
    intro a ha
    have hpa := List.find?_some ha
    obtain ⟨hid, hfg⟩ := h a ha
    refine ⟨?_, hfg⟩
    rw [show (g a).id = a.id from hid]
    exact hpa
  show GameState.mk (updateFirst (fun p => p.id == pid) f
      (updateFirst (fun p => p.id == pid) g s.players)) s.mapCells s.specialEffects s.config = s
  rw [h2]

theorem setPlayer_fuse (s : GameState) (pid : Int) (f g : Player → Player)
    (hg : ∀ a, (g a).id = a.id) :
    (s.setPlayer pid g).setPlayer pid f = s.setPlayer pid (fun a => f (g a)) := by
  show GameState.mk (updateFirst (fun p => p.id == pid) f
      (updateFirst (fun p => p.id == pid) g s.players)) s.mapCells s.specialEffects s.config = _
  rw [updateFirst_fuse _ _ _ _ (fun a => by rw [hg a])]
  rfl

theorem setCellAt_cancel (s : GameState) (pos : Int) (f g : MapCell → MapCell)
    (h : ∀ a, s.getCellAtPosition pos = some a → (g a).position = a.position ∧ f (g a) = a) :
    (s.setCellAt pos g).setCellAt pos f = s := by
  have h2 : updateFirst (fun c => c.position == pos + 1) f
      (updateFirst (fun c => c.position == pos + 1) g s.mapCells) = s.mapCells := by
    apply updateFirst_cancel
    intro a ha
    have hpa := List.find?_some ha
    obtain ⟨hid, hfg⟩ := h a ha
    refine ⟨?_, hfg⟩
    rw [show (g a).position = a.position from hid]
    exact hpa
  show GameState.mk s.players (updateFirst (fun c => c.position == pos + 1) f
      (updateFirst (fun c => c.position == pos + 1) g s.mapCells)) s.specialEffects s.config = s
  rw [h2]

theorem stateOk_setPlayer (s : GameState) (pid : Int) (f : Player → Player)
    (hf : ∀ p ∈ s.players, 0 ≤ p.money → 0 ≤ (f p).money)
    (h : StateOk s) : StateOk (s.setPlayer pid f) :=
  ⟨forall_updateFirst _ _ _ h.1 hf, h.2.1, h.2.2⟩

theorem stateOk_setCellAt (s : GameState) (pos : Int) (f : MapCell → MapCell)
    (hf : ∀ c ∈ s.mapCells, 0 < c.upgradeCost → 0 < (f c).upgradeCost)
    (h : StateOk s) : StateOk (s.setCellAt pos f) :=
  ⟨h.1, forall_updateFirst _ _ _ h.2.1 hf, h.2.2⟩

theorem payTax_exec_revert (c : PayTaxCmd) (c1 : PayTaxCmd) (s s1 : GameState) (ok : Bool)
    (hok : StateOk s) (h : c.execute s = (c1, s1, ok)) :
    (ok = false → s1 = s) ∧ (ok = true → (c1.undo s1).2.1 = s ∧ StateOk s1) := by
  unfold PayTaxCmd.execute at h
  rcases hpl : s.getPlayerById c.playerId with _ | player
  · rw [hpl] at h
    injection h with h1 h2
    injection h2 with h2 h3
    subst h2; subst h3
    exact And.intro (fun _ => rfl) (fun hc => nomatch hc)
  · rw [hpl] at h
    simp only [] at h
    split at h
    next hsp =>
      injection h with h1 h2
      injection h2 with h2 h3
      subst h1; subst h2; subst h3
      refine And.intro (fun hc => nomatch hc) (fun _ => And.intro ?_ ?_)
      · have hfind : (s.setPlayer c.playerId fun _ =>
            (player.spendMoney c.taxAmount).1).getPlayerById c.playerId =
            some (player.spendMoney c.taxAmount).1 :=
          getPlayerById_setPlayer_found s c.playerId _ player hpl (spendMoney_id player _)
        unfold PayTaxCmd.undo
        rw [hfind]
        show (s.setPlayer c.playerId fun _ => (player.spendMoney c.taxAmount).1).setPlayer
            c.playerId (fun p => p.addMoney c.taxAmount) = s
        apply setPlayer_cancel
        intro a ha
        rw [hpl] at ha
        injection ha with ha
        subst ha
        exact ⟨spendMoney_id player _, spend_then_add player _ hsp⟩
      · refine stateOk_setPlayer s _ _ ?_ hok
        intro p hp _
        exact spendMoney_nonneg player _
          (hok.1 player (List.mem_of_find?_eq_some hpl))
    next hsp =>
      injection h with h1 h2
      injection h2 with h2 h3
      subst h2; subst h3
      exact And.intro (fun _ => rfl) (fun hc => nomatch hc)

theorem goToJail_exec_revert (c : GoToJailCmd) (c1 : GoToJailCmd) (s s1 : GameState) (ok : Bool)
    (hok : StateOk s) (h : c.execute s = (c1, s1, ok)) :
    (ok = false → s1 = s) ∧ (ok = true → (c1.undo s1).2.1 = s ∧ StateOk s1) := by
  unfold GoToJailCmd.execute at h
  rcases hpl : s.getPlayerById c.playerId with _ | player
  · rw [hpl] at h
    injection h with h1 h2
    injection h2 with h2 h3
    subst h2; subst h3
    exact And.intro (fun _ => rfl) (fun hc => nomatch hc)
  · rw [hpl] at h
    simp only [] at h
    injection h with h1 h2
    injection h2 with h2 h3
    subst h1; subst h2; subst h3
    refine And.intro (fun hc => nomatch hc) (fun _ => And.intro ?_ ?_)
    · have hfind : (s.setPlayer c.playerId fun p => p.goToJail).getPlayerById c.playerId =
          some player.goToJail :=
        getPlayerById_setPlayer_found s c.playerId _ player hpl rfl
      unfold GoToJailCmd.undo
      rw [hfind]
      show (s.setPlayer c.playerId fun p => p.goToJail).setPlayer c.playerId
          (fun p => { p with position := player.position, isInJail := player.isInJail,
                             jailTurns := player.jailTurns }) = s
      apply setPlayer_cancel
      intro a ha
      rw [hpl] at ha
      injection ha with ha
      subst ha
      exact ⟨rfl, rfl⟩
    · exact stateOk_setPlayer s _ _ (fun p hp hm => hm) hok

theorem move_exec_revert (c : MoveCmd) (c1 : MoveCmd) (s s1 : GameState) (ok : Bool)
    (hok : StateOk s) (h : c.execute s = (c1, s1, ok)) :
    (ok = false → s1 = s) ∧ (ok = true → (c1.undo s1).2.1 = s ∧ StateOk s1) := by
  unfold MoveCmd.execute GameState.movePlayer at h
  rcases hpl : s.getPlayerById c.playerId with _ | player
  · rw [hpl] at h
    injection h with h1 h2
    injection h2 with h2 h3
    subst h2; subst h3
    exact And.intro (fun _ => rfl) (fun hc => nomatch hc)
  · rw [hpl] at h
    simp only [] at h
    injection h with h1 h2
    injection h2 with h2 h3
    subst h1; subst h2; subst h3
    have hmem : player ∈ s.players := List.mem_of_find?_eq_some hpl
    cases hpass : (player.move c.steps (s.mapCells.length : Int)).2
    · refine And.intro (fun hc => nomatch hc) (fun _ => And.intro ?_ ?_)
      · show (MoveCmd.undo
            { c with previousPosition := some player.position, startBonusReceived := false,
                     executed := true }
            (s.setPlayer c.playerId fun _ =>
              (player.move c.steps (s.mapCells.length : Int)).1)).2.1 = s
        have hfind : (s.setPlayer c.playerId fun _ =>
            (player.move c.steps (s.mapCells.length : Int)).1).getPlayerById c.playerId =
            some (player.move c.steps (s.mapCells.length : Int)).1 :=
          getPlayerById_setPlayer_found s c.playerId _ player hpl rfl
        unfold MoveCmd.undo
        rw [hfind]
        show (s.setPlayer c.playerId fun _ =>
            (player.move c.steps (s.mapCells.length : Int)).1).setPlayer c.playerId
            (fun p => { p with position := player.position }) = s
        apply setPlayer_cancel
        intro a ha
        rw [hpl] at ha
        injection ha with ha
        subst ha
        exact ⟨rfl, rfl⟩
      · refine stateOk_setPlayer s _ _ ?_ hok
        intro p hp _
        exact hok.1 player hmem
    · refine And.intro (fun hc => nomatch hc) (fun _ => And.intro ?_ ?_)
      · show (MoveCmd.undo
            { c with previousPosition := some player.position, startBonusReceived := true,
                     executed := true }
            (s.setPlayer c.playerId fun _ =>
              ((player.move c.steps (s.mapCells.length : Int)).1).addMoney
                s.config.startBonus)).2.1 = s
        have hfind : (s.setPlayer c.playerId fun _ =>
            ((player.move c.steps (s.mapCells.length : Int)).1).addMoney
              s.config.startBonus).getPlayerById c.playerId =
            some (((player.move c.steps (s.mapCells.length : Int)).1).addMoney
              s.config.startBonus) :=
          getPlayerById_setPlayer_found s c.playerId _ player hpl rfl
        unfold MoveCmd.undo
        rw [hfind]
        show ((s.setPlayer c.playerId fun _ =>
            ((player.move c.steps (s.mapCells.length : Int)).1).addMoney
              s.config.startBonus).setPlayer c.playerId
            (fun p => { p with position := player.position })).setPlayer c.playerId
            (fun p => (p.spendMoney s.config.startBonus).1) = s
        rw [setPlayer_fuse (s.setPlayer c.playerId fun _ =>
            ((player.move c.steps (s.mapCells.length : Int)).1).addMoney
              s.config.startBonus) c.playerId
            (fun p => (p.spendMoney s.config.startBonus).1)
            (fun p => { p with position := player.position }) (fun a => rfl)]
        apply setPlayer_cancel
        intro a ha
        rw [hpl] at ha
        injection ha with ha
        subst ha
        refine ⟨rfl, ?_⟩
        show ((player.addMoney s.config.startBonus).spendMoney s.config.startBonus).1 = player
        exact add_then_spend player _ (hok.1 player hmem)
      · refine stateOk_setPlayer s _ _ ?_ hok
        intro p hp _
        exact add_nonneg (hok.1 player hmem) hok.2.2

theorem payRent_exec_revert (c : PayRentCmd) (c1 : PayRentCmd) (s s1 : GameState) (ok : Bool)
    (hok : StateOk s) (hne : ¬c.payerId = c.receiverId) (hamt : 0 ≤ c.amount)
    (h : c.execute s = (c1, s1, ok)) :
    (ok = false → s1 = s) ∧ (ok = true → (c1.undo s1).2.1 = s ∧ StateOk s1) := by
  unfold PayRentCmd.execute at h
  rcases hpl : s.getPlayerById c.payerId with _ | payer <;>
    rcases hrv : s.getPlayerById c.receiverId with _ | recv <;>
    rw [hpl, hrv] at h
  · injection h with h1 h2
    injection h2 with h2 h3
    subst h2; subst h3
    exact And.intro (fun _ => rfl) (fun hc => nomatch hc)
  · injection h with h1 h2
    injection h2 with h2 h3
    subst h2; subst h3
    exact And.intro (fun _ => rfl) (fun hc => nomatch hc)
  · injection h with h1 h2
    injection h2 with h2 h3
    subst h2; subst h3
    exact And.intro (fun _ => rfl) (fun hc => nomatch hc)
  · simp only [] at h
    split at h
    next hsp =>
      injection h with h1 h2
      injection h2 with h2 h3
      subst h1; subst h2; subst h3
      have hmemp : payer ∈ s.players := List.mem_of_find?_eq_some hpl
      have hmemr : recv ∈ s.players := List.mem_of_find?_eq_some hrv
      have hfp1 : (s.setPlayer c.payerId fun _ =>
          (payer.spendMoney c.amount).1).getPlayerById c.receiverId =
          s.getPlayerById c.receiverId :=
        getPlayerById_setPlayer_other s c.payerId _ c.receiverId
          (fun hEq => hne hEq.symm)
          (fun a ha => by
            rw [hpl] at ha
            injection ha with ha
            rw [← ha]
            exact spendMoney_id payer _)
      refine And.intro (fun hc => nomatch hc) (fun _ => And.intro ?_ ?_)
      · have hfr : ((s.setPlayer c.payerId fun _ =>
            (payer.spendMoney c.amount).1).setPlayer c.receiverId fun p =>
            p.addMoney c.amount).getPlayerById c.receiverId =
            some (recv.addMoney c.amount) :=
          getPlayerById_setPlayer_found _ _ _ recv (by rw [hfp1]; exact hrv) rfl
        have hfpay : ((s.setPlayer c.payerId fun _ =>
            (payer.spendMoney c.amount).1).setPlayer c.receiverId fun p =>
            p.addMoney c.amount).getPlayerById c.payerId =
            some ((payer.spendMoney c.amount).1) := by
          rw [getPlayerById_setPlayer_other
            (s.setPlayer c.payerId fun _ => (payer.spendMoney c.amount).1) c.receiverId
            (fun p => p.addMoney c.amount) c.payerId hne (fun a _ => rfl)]
          exact getPlayerById_setPlayer_found s _ _ payer hpl (spendMoney_id _ _)
        unfold PayRentCmd.undo
        rw [hfpay, hfr]
        show (((s.setPlayer c.payerId fun _ =>
            (payer.spendMoney c.amount).1).setPlayer c.receiverId fun p =>
            p.addMoney c.amount).setPlayer c.receiverId
            (fun p => (p.spendMoney c.amount).1)).setPlayer c.payerId
            (fun p => p.addMoney c.amount) = s
        have e1 : ((s.setPlayer c.payerId fun _ =>
            (payer.spendMoney c.amount).1).setPlayer c.receiverId fun p =>
            p.addMoney c.amount).setPlayer c.receiverId
            (fun p => (p.spendMoney c.amount).1) =
            s.setPlayer c.payerId fun _ => (payer.spendMoney c.amount).1 := by
          apply setPlayer_cancel
          intro a ha
          rw [hfp1] at ha
          rw [hrv] at ha
          injection ha with ha
          subst ha
          exact ⟨rfl, add_then_spend recv _ (hok.1 recv hmemr)⟩
        rw [e1]
        apply setPlayer_cancel
        intro a ha
        rw [hpl] at ha
        injection ha with ha
        subst ha
        exact ⟨spendMoney_id payer _, spend_then_add payer _ hsp⟩
      · refine stateOk_setPlayer _ _ _ ?_ (stateOk_setPlayer _ _ _ ?_ hok)
        · intro p hp hm
          exact add_nonneg hm hamt
        · intro p hp _
          exact spendMoney_nonneg payer _ (hok.1 payer hmemp)
    next hsp =>
      injection h with h1 h2
      injection h2 with h2 h3
      subst h2; subst h3
      exact And.intro (fun _ => rfl) (fun hc => nomatch hc)

theorem upgrade_exec_revert (c : UpgradeCmd) (c1 : UpgradeCmd) (s s1 : GameState) (ok : Bool)
    (hok : StateOk s) (h : c.execute s = (c1, s1, ok)) :
    (ok = false → s1 = s) ∧ (ok = true → (c1.undo s1).2.1 = s ∧ StateOk s1) := by
  unfold UpgradeCmd.execute GameState.upgradeProperty at h
  rcases hpl : s.getPlayerById c.playerId with _ | player <;>
    rcases hcl : s.getCellAtPosition c.cellPosition with _ | cell <;>
    rw [hpl, hcl] at h
  · injection h with h1 h2
    injection h2 with h2 h3
    subst h2; subst h3
    exact And.intro (fun _ => rfl) (fun hc => nomatch hc)
  · injection h with h1 h2
    injection h2 with h2 h3
    subst h2; subst h3
    exact And.intro (fun _ => rfl) (fun hc => nomatch hc)
  · injection h with h1 h2
    injection h2 with h2 h3
    subst h2; subst h3
    exact And.intro (fun _ => rfl) (fun hc => nomatch hc)
  · simp only [] at h
    split at h
    next hown0 =>
      injection h with h1 h2
      injection h2 with h2 h3
      subst h2; subst h3
      exact And.intro (fun _ => rfl) (fun hc => nomatch hc)
    next hown0 =>
      have hown : (cell.ownerId == some c.playerId) = true := not_not.mp hown0
      split at h
      next hguard =>
        rw [Bool.and_eq_true] at hguard
        obtain ⟨hcanU, hge0⟩ := hguard
        have hge : player.money ≥ cell.upgradeCost := of_decide_eq_true hge0
        have hupg : cell.upgrade = ({ cell with level := cell.level.next },
            cell.upgradeCost) := by
          unfold MapCell.upgrade
          rw [if_pos hcanU]
        have hnotcond : ¬(¬(cell.ownerId == some c.playerId) = true ∨
            ¬cell.canUpgrade = true) :=
          fun hc => hc.elim (fun h1 => h1 hown) (fun h2 => h2 hcanU)
        have hcostpos : (0 : Int) < cell.upgradeCost :=
          hok.2.1 cell (List.mem_of_find?_eq_some hcl)
        have hsp : (player.spendMoney cell.upgradeCost).2 = true := by
          unfold Player.spendMoney
          rw [if_pos hge]
        rw [if_neg hnotcond, hupg] at h
        simp only [] at h
        rw [if_pos hcostpos, if_pos hsp] at h
        injection h with h1 h2
        injection h2 with h2 h3
        subst h1; subst h2; subst h3
        refine And.intro (fun hc => nomatch hc) (fun _ => And.intro ?_ ?_)
        · have hfpl : ((s.setCellAt c.cellPosition fun _ =>
              { cell with level := cell.level.next }).setPlayer c.playerId fun _ =>
              (player.spendMoney cell.upgradeCost).1).getPlayerById c.playerId =
              some ((player.spendMoney cell.upgradeCost).1) :=
            getPlayerById_setPlayer_found
              (s.setCellAt c.cellPosition fun _ => { cell with level := cell.level.next })
              c.playerId _ player hpl (spendMoney_id _ _)
          have hfcl : ((s.setCellAt c.cellPosition fun _ =>
              { cell with level := cell.level.next }).setPlayer c.playerId fun _ =>
              (player.spendMoney cell.upgradeCost).1).getCellAtPosition c.cellPosition =
              some ({ cell with level := cell.level.next }) :=
            getCellAtPosition_setCellAt_found s c.cellPosition _ cell hcl rfl
          unfold UpgradeCmd.undo
          rw [hfpl, hfcl]
          show (((s.setCellAt c.cellPosition fun _ =>
              { cell with level := cell.level.next }).setPlayer c.playerId fun _ =>
              (player.spendMoney cell.upgradeCost).1).setPlayer c.playerId
              (fun p => p.addMoney cell.upgradeCost)).setCellAt c.cellPosition
              (fun cl => { cl with level := cell.level }) = s
          have e1 : ((s.setCellAt c.cellPosition fun _ =>
              { cell with level := cell.level.next }).setPlayer c.playerId fun _ =>
              (player.spendMoney cell.upgradeCost).1).setPlayer c.playerId
              (fun p => p.addMoney cell.upgradeCost) =
              s.setCellAt c.cellPosition fun _ => { cell with level := cell.level.next } := by
            apply setPlayer_cancel
            intro a ha
            have ha2 : s.getPlayerById c.playerId = some a := ha
            rw [hpl] at ha2
            injection ha2 with ha2
            subst ha2
            exact ⟨spendMoney_id player _, spend_then_add player _ hsp⟩
          rw [e1]
          apply setCellAt_cancel
          intro a ha
          rw [hcl] at ha
          injection ha with ha
          subst ha
          exact ⟨rfl, rfl⟩
        · refine stateOk_setPlayer _ _ _ ?_ (stateOk_setCellAt _ _ _ ?_ hok)
          · intro p hp _
            exact spendMoney_nonneg player _
              (hok.1 player (List.mem_of_find?_eq_some hpl))
          · intro cl hc _
            exact hcostpos
      next hguard =>
        injection h with h1 h2
        injection h2 with h2 h3
        subst h2; subst h3
        exact And.intro (fun _ => rfl) (fun hc => nomatch hc)

theorem cmd_revert (cmd cmd1 : Cmd) (s s1 : GameState) (ok : Bool)
    (hgood : RevertibleCmd cmd = true) (hok : StateOk s)
    (h : cmd.execute s = (cmd1, s1, ok)) :
    (ok = false → s1 = s) ∧ (ok = true → (cmd1.undo s1).2.1 = s ∧ StateOk s1) := by
  cases cmd with
  | purchase cc => exact Bool.noConfusion (show false = true from hgood)
  | upgrade cc =>
      rcases hr : cc.execute s with ⟨cc1, s1x, okx⟩
      simp only [Cmd.execute, hr] at h
      injection h with h1 h2
      injection h2 with h2 h3
      subst h1; subst h2; subst h3
      have hm := upgrade_exec_revert cc cc1 s s1x okx hok hr
      refine And.intro hm.1 (fun ht => And.intro ?_ (hm.2 ht).2)
      exact (hm.2 ht).1
  | payRent cc =>
      have hg2 : (!(cc.payerId == cc.receiverId) && decide (0 ≤ cc.amount)) = true := hgood
      rw [Bool.and_eq_true] at hg2
      obtain ⟨hne0, hamt0⟩ := hg2
      have hbe : (cc.payerId == cc.receiverId) = false := by
        cases hbe0 : (cc.payerId == cc.receiverId)
        · rfl
        · rw [hbe0] at hne0
          exact nomatch hne0
      have hne : ¬cc.payerId = cc.receiverId := fun hEq => by
        rw [hEq] at hbe
        simp at hbe
      have hamt : 0 ≤ cc.amount := of_decide_eq_true hamt0
      rcases hr : cc.execute s with ⟨cc1, s1x, okx⟩
      simp only [Cmd.execute, hr] at h
      injection h with h1 h2
      injection h2 with h2 h3
      subst h1; subst h2; subst h3
      have hm := payRent_exec_revert cc cc1 s s1x okx hok hne hamt hr
      refine And.intro hm.1 (fun ht => And.intro ?_ (hm.2 ht).2)
      exact (hm.2 ht).1
  | move cc =>
      rcases hr : cc.execute s with ⟨cc1, s1x, okx⟩
      simp only [Cmd.execute, hr] at h
      injection h with h1 h2
      injection h2 with h2 h3
      subst h1; subst h2; subst h3
      have hm := move_exec_revert cc cc1 s s1x okx hok hr
      refine And.intro hm.1 (fun ht => And.intro ?_ (hm.2 ht).2)
      exact (hm.2 ht).1
  | payTax cc =>
      rcases hr : cc.execute s with ⟨cc1, s1x, okx⟩
      simp only [Cmd.execute, hr] at h
      injection h with h1 h2
      injection h2 with h2 h3
      subst h1; subst h2; subst h3
      have hm := payTax_exec_revert cc cc1 s s1x okx hok hr
      refine And.intro hm.1 (fun ht => And.intro ?_ (hm.2 ht).2)
      exact (hm.2 ht).1
  | goToJail cc =>
      rcases hr : cc.execute s with ⟨cc1, s1x, okx⟩
      simp only [Cmd.execute, hr] at h
      injection h with h1 h2
      injection h2 with h2 h3
      subst h1; subst h2; subst h3
      have hm := goToJail_exec_revert cc cc1 s s1x okx hok hr
      refine And.intro hm.1 (fun ht => And.intro ?_ (hm.2 ht).2)
      exact (hm.2 ht).1

theorem macroRun_fail_restores (pending : List Cmd) :
    ∀ (stack : List Cmd) (s0 s : GameState),
      (∀ c ∈ pending, RevertibleCmd c = true) → StateOk s →
      (undoRevList stack.reverse s).2.1 = s0 →
      (macroRun pending stack s).2.2 = false →
      (macroRun pending stack s).2.1 = s0 := by
  induction pending with
  | nil =>
      intro stack s0 s _ _ _ hfail
      exact nomatch hfail
  | cons c rest ih =>
      intro stack s0 s hgood hok hinv hfail
      rcases hr : c.execute s with ⟨c1, s1, ok⟩
      have hrev := cmd_revert c c1 s s1 ok (hgood c (List.mem_cons_self _ _)) hok hr
      cases ok with
      | true =>
          have hundo := hrev.2 rfl
          have hrun : macroRun (c :: rest) stack s = macroRun rest (stack ++ [c1]) s1 := by
            simp [macroRun, hr]
          rw [hrun] at hfail ⊢
          apply ih (stack ++ [c1]) s0 s1
            (fun x hx => hgood x (List.mem_cons_of_mem _ hx)) hundo.2
          · have e : (stack ++ [c1]).reverse = c1 :: stack.reverse := by simp
            rw [e]
            show (undoRevList (c1 :: stack.reverse) s1).2.1 = s0
            have e2 : (c1.undo s1).2.1 = s := hundo.1
            simp only [undoRevList]
            rw [e2]
            exact hinv
          · exact hfail
      | false =>
          have hs1 : s1 = s := hrev.1 rfl
          have hrun : macroRun (c :: rest) stack s =
              ([], (undoRevList stack.reverse s1).2.1, false) := by
            simp [macroRun, hr]
          rw [hrun]
          show (undoRevList stack.reverse s1).2.1 = s0
          rw [hs1]
          exact hinv

/-- Counterexample to claim C3: a macro of a successful purchase followed by
a failing tax payment reports failure but does not restore the state — the
purchase undo removes the player-relative `cell_position` from the
properties list while execute appended the cell's map position, so the
purchased position is still listed after the rollback. -/
theorem C3_counterexample :
    (MacroCmd.execute
      { commands := [Cmd.purchase { playerId := 1, cellPosition := 3 },
                     Cmd.payTax { playerId := 1, taxAmount := 5000, taxType := "所得税" }] }
      { players := [{ id := 1, name := "甲", playerType := .human, money := 2000,
                      position := 3 }],
        mapCells := [{ id := 2, position := 4, name := "高雄", cellType := .property,
                       price := 1000, rentBase := 50, upgradeCost := 300 }] }).2.2 = false ∧
    (MacroCmd.execute
      { commands := [Cmd.purchase { playerId := 1, cellPosition := 3 },
                     Cmd.payTax { playerId := 1, taxAmount := 5000, taxType := "所得税" }] }
      { players := [{ id := 1, name := "甲", playerType := .human, money := 2000,
                      position := 3 }],
        mapCells := [{ id := 2, position := 4, name := "高雄", cellType := .property,
                       price := 1000, rentBase := 50, upgradeCost := 300 }] }).2.1 ≠
      { players := [{ id := 1, name := "甲", playerType := .human, money := 2000,
                      position := 3 }],
        mapCells := [{ id := 2, position := 4, name := "高雄", cellType := .property,
                       price := 1000, rentBase := 50, upgradeCost := 300 }] } ∧
    (((MacroCmd.execute
      { commands := [Cmd.purchase { playerId := 1, cellPosition := 3 },
                     Cmd.payTax { playerId := 1, taxAmount := 5000, taxType := "所得税" }] }
      { players := [{ id := 1, name := "甲", playerType := .human, money := 2000,
                      position := 3 }],
        mapCells := [{ id := 2, position := 4, name := "高雄", cellType := .property,
                       price := 1000, rentBase := 50, upgradeCost := 300 }] }).2.1.getPlayerById
      1).map Player.properties = some [4]) := by
  refine ⟨by decide, by decide, by decide⟩

/-- Claim C3 (amended): for macros whose members avoid the purchase command
class — whose undo is not an exact inverse — and with rent transfers between
distinct parties with nonnegative amounts, a failing `MacroCommand.execute`
on sane game data (nonnegative balances, positive upgrade costs, nonnegative
start bonus) undoes the executed prefix in reverse order and leaves the game
state exactly equal to the state before the macro started. -/
theorem C3_macro_rollback (m : MacroCmd) (s0 : GameState)
    (hgood : ∀ c ∈ m.commands, RevertibleCmd c = true)
    (hok : StateOk s0)
    (hfail : (m.execute s0).2.2 = false) :
    (m.execute s0).2.1 = s0 := by
  have hfail2 : (macroRun m.commands [] s0).2.2 = false := hfail
  exact macroRun_fail_restores m.commands [] s0 s0 hgood hok rfl hfail2

/-- Witness for C3: a macro of a jail command followed by an unaffordable tax
payment fails and restores the concrete starting state exactly. -/
theorem C3_macro_rollback_witness :
    (MacroCmd.execute
      { commands := [Cmd.goToJail { playerId := 1 },
                     Cmd.payTax { playerId := 1, taxAmount := 999999, taxType := "奢侈税" }] }
      { players := [{ id := 1, name := "壬", playerType := .human, money := 1000,
                      position := 2 }],
        mapCells := [{ id := 1, position := 1, name := "起点", cellType := .start,
                       price := 0, rentBase := 0, upgradeCost := 100 }] }).2.1 =
      { players := [{ id := 1, name := "壬", playerType := .human, money := 1000,
                      position := 2 }],
        mapCells := [{ id := 1, position := 1, name := "起点", cellType := .start,
                       price := 0, rentBase := 0, upgradeCost := 100 }] } :=
  C3_macro_rollback
    { commands := [Cmd.goToJail { playerId := 1 },
                   Cmd.payTax { playerId := 1, taxAmount := 999999, taxType := "奢侈税" }] }
    { players := [{ id := 1, name := "壬", playerType := .human, money := 1000,
                    position := 2 }],
      mapCells := [{ id := 1, position := 1, name := "起点", cellType := .start,
                     price := 0, rentBase := 0, upgradeCost := 100 }] }
    (by decide) ⟨by decide, by decide, by decide⟩ (by decide)

end Monopoly
